import Mathlib

/-!
Verification of the aggregation / anomaly-detection / momentum-index core of the
AI-Job-Market-Dashboard ETL pipeline.

The relevant Python sources are shallowly embedded below:
  * `src/etl/aggregate_counts.py`  (`add_rolling_averages`, `compute_skill_frequency`)
  * `src/etl/generate_alerts.py`   (`detect_spikes`, `detect_drops`, `detect_skill_trends`,
                                    the alert metadata step of `generate_alerts`)
  * `src/etl/compute_jmmi.py`      (`compute_jmmi` and its five component scorers,
                                    `interpret_jmmi`, `generate_recommendation`,
                                    `create_default_jmmi`)

Modelling conventions:
  * python floats are modelled as `ℚ`; float columns and scores are `ℚ` values;
    `round(x, 1)` is modelled by `round1` (round half to even on the scaled value,
    which is python's rounding rule on exact values);
  * pandas DataFrames are lists of per-row structures; `sort_values` is a stable
    sort (`sortL`); python dicts are association lists in insertion order,
    `dict.get` is `lookupL`;
  * dates are `ℕ` (datetime values) except where a column can hold either raw
    strings or converted datetimes, which is modelled by `DVal`; `pd.to_datetime`
    is modelled by `toDatetime` with an abstract order-embedding `parse`;
  * `datetime.now()` and the derived cutoff / timestamps enter as parameters;
  * presentation-only string fields (`description`, `message`, emoji, guidance
    texts) are not modelled; absent dict keys on fallback results are modelled
    by the neutral constants the consumers would read;
  * `np.sqrt` (used only inside the spike z-score) is an abstract parameter
    `sqrtQ : ℚ → ℚ`, since its result feeds only comparisons that the claims
    below never depend on numerically;
  * fallible paths (a caught `IndexError`, the `generate_recommendation`
    crash on an empty trending list) are modelled with `Option`.
-/

/-- Lexicographic comparison of character lists by code point, modelling python
string comparison. -/
def lexLe : List Char → List Char → Bool
  | [], _ => true
  | _ :: _, [] => false
  | a :: as, b :: bs =>
    if a.toNat < b.toNat then true
    else if b.toNat < a.toNat then false
    else lexLe as bs

/-- Python string `<=` (code-point lexicographic order). -/
def strLe (s t : String) : Bool := lexLe s.data t.data

/-- Stable insertion used by `sortL`: an element is placed before the first
existing element it compares `le` to, so earlier elements stay before equal
later ones (python `sorted` stability). -/
def insertS {α : Type} (le : α → α → Bool) (x : α) : List α → List α
  | [] => [x]
  | y :: ys => if le x y then x :: y :: ys else y :: insertS le x ys

/-- Stable sort modelling python `sorted` / pandas `sort_values`. -/
def sortL {α : Type} (le : α → α → Bool) (l : List α) : List α :=
  l.foldr (insertS le) []

/-- Worker for `dedupF`, keeping the first occurrence of every element. -/
def dedupFgo {α : Type} [DecidableEq α] : List α → List α → List α
  | [], _ => []
  | a :: t, seen => if a ∈ seen then dedupFgo t seen else a :: dedupFgo t (a :: seen)

/-- First-occurrence deduplication, modelling the key order of a python dict /
`Counter` built by repeated insertion, and `pandas.Series.unique`. -/
def dedupF {α : Type} [DecidableEq α] (l : List α) : List α := dedupFgo l []

/-- Association-list lookup in insertion order, modelling python `dict.get` /
`dict[k]`. -/
def lookupL {β : Type} (k : String) : List (String × β) → Option β
  | [] => none
  | p :: t => if p.1 = k then some p.2 else lookupL k t

/-- The multiset of counts of a list, keyed in first-occurrence order:
`collections.Counter(xs)` as an association list. -/
def counter (xs : List String) : List (String × ℕ) :=
  (dedupF xs).map (fun k => (k, xs.count k))

/-- Embedding of `Counter.most_common(n)`: entries sorted by count descending (stable, so
ties keep first-insertion order) and truncated to the top `n`. -/
def most_common (n : ℕ) (c : List (String × ℕ)) : List (String × ℕ) :=
  (sortL (fun a b => decide (b.2 ≤ a.2)) c).take n

/-- Round half to even to an integer, modelling python `round` on exact values. -/
def roundE (x : ℚ) : ℤ :=
  if x - Int.floor x < 1/2 then Int.floor x
  else if x - Int.floor x > 1/2 then Int.floor x + 1
  else if Int.floor x % 2 = 0 then Int.floor x else Int.floor x + 1

/-- Python `round(x, 1)`. -/
def round1 (q : ℚ) : ℚ := (roundE (10 * q) : ℚ) / 10

/-- Python `round(x, 0)`. -/
def round0 (q : ℚ) : ℚ := (roundE q : ℚ)

/-- One row of an aggregated daily-count table (`daily_*_counts`): a date
(datetime, already validated), the group key column value (`category_name` /
`location_clean`, or the constant `"All"`), and the group size. Counts are
integer-valued; `ℚ` is used for the arithmetic done on the column. -/
structure AggRow where
  posted_date : ℕ
  group : String
  job_count : ℚ
deriving DecidableEq

/-- Sort key of `sort_values(['posted_date', group_col])`. -/
def aggLe (a b : AggRow) : Bool :=
  decide (a.posted_date < b.posted_date) ||
    (decide (a.posted_date = b.posted_date) && strLe a.group b.group)

/-- An output row of `add_rolling_averages` (NaN as `none`). -/
structure RollRow where
  posted_date : ℕ
  group : String
  job_count : ℚ
  rolling_7d : Option ℚ
  rolling_30d : Option ℚ
deriving DecidableEq

/-- The value a pandas trailing `rolling(window=w, min_periods=1).mean()` takes
at the last position of the series prefix `hist` (`none` is NaN, which cannot
occur once `hist` is nonempty). -/
def rollLast (w : ℕ) (hist : List ℚ) : Option ℚ :=
  let win := hist.drop (hist.length - w)
  if win.length = 0 then none else some (win.sum / (win.length : ℚ))

/-- The rolling decoration `groupby(...).transform(rolling(...).mean())` gives
the row at position `p.1` of the sorted frame `s`: its trailing-window means are
taken over the rows of its own group among the rows up to and including it. -/
def decorateRow (s : List AggRow) (p : ℕ × AggRow) : RollRow :=
  let hist := ((s.take (p.1 + 1)).filter (fun r => decide (r.group = p.2.group))).map
    (fun r => r.job_count)
  { posted_date := p.2.posted_date, group := p.2.group, job_count := p.2.job_count,
    rolling_7d := rollLast 7 hist, rolling_30d := rollLast 30 hist }

/-- Embedding of `add_rolling_averages` of aggregate_counts.py: sort by
(posted_date, group column), then per group compute the trailing moving means
with windows 7 and 30 and `min_periods=1`, aligned back to the sorted rows.
Missing calendar days are simply absent rows; nothing is zero-filled. -/
def add_rolling_averages (df : List AggRow) : List RollRow :=
  (sortL aggLe df).enum.map (decorateRow (sortL aggLe df))

/-- The loosely-typed `skills` cell of a cleaned jobs row: `None`, a float NaN,
a numpy array / list / tuple of strings, or a scalar (already stringified). -/
inductive SkillsVal where
  | null
  | nan
  | arr (l : List String)
  | scal (s : String)
deriving DecidableEq

/-- One row of the cleaned jobs table — the columns `compute_skill_frequency`
reads. `posted_date` is the `str()` rendering of the date cell. -/
structure JobRow where
  skills : SkillsVal
  category_name : String
  posted_date : String
deriving DecidableEq

/-- The `skills_list` a row contributes in `compute_skill_frequency`: arrays and
lists keep their truthy (nonempty) entries, scalars wrap into a singleton,
`None`/NaN contribute nothing. -/
def rowSkills (r : JobRow) : List String :=
  match r.skills with
  | .null => []
  | .nan => []
  | .arr l => l.filter (fun s => decide (¬ s = ""))
  | .scal s => [s]

/-- Rows passing the `if skills_list:` guard; only these touch the three
accumulator dicts. -/
def contributingRows (df : List JobRow) : List JobRow :=
  df.filter (fun r => decide (¬ rowSkills r = []))

/-- Embedding of `str(row.get('posted_date', ''))[:10]`. -/
def truncDate (r : JobRow) : String := r.posted_date.take 10

/-- The flattened `all_skills` list. -/
def allSkills (df : List JobRow) : List String :=
  (contributingRows df).flatMap rowSkills

/-- The accumulated `skill_by_category[c]` list (rows are visited in order, so
the bucket is the concatenation of the per-row lists of that category). -/
def catSkills (df : List JobRow) (c : String) : List String :=
  ((contributingRows df).filter (fun r => decide (r.category_name = c))).flatMap rowSkills

/-- The accumulated `skill_by_date[d]` list. -/
def dateSkills (df : List JobRow) (d : String) : List String :=
  ((contributingRows df).filter (fun r => decide (truncDate r = d))).flatMap rowSkills

/-- Keys of `skill_by_category` in insertion (first-occurrence) order. -/
def catKeys (df : List JobRow) : List String :=
  dedupF ((contributingRows df).map (fun r => r.category_name))

/-- Keys of `skill_by_date` in insertion (first-occurrence) order. -/
def dateKeys (df : List JobRow) : List String :=
  dedupF ((contributingRows df).map truncDate)

/-- The content of `skill_frequency.json`: `overall`, `by_category`, `by_date`
as ordered association lists (python dicts in insertion order). -/
structure SkillData where
  overall : List (String × ℕ)
  by_category : List (String × List (String × ℕ))
  by_date : List (String × List (String × ℕ))
deriving DecidableEq

/-- Embedding of `compute_skill_frequency` of aggregate_counts.py: top 100 skills overall,
top 20 per category, and top 10 per day restricted to the last 30 date keys in
lexicographic (= chronological, fixed-width ISO) order. -/
def compute_skill_frequency (df : List JobRow) : SkillData :=
  let ks := sortL strLe (dateKeys df)
  { overall := most_common 100 (counter (allSkills df)),
    by_category := (catKeys df).map (fun c => (c, most_common 20 (counter (catSkills df c)))),
    by_date := (ks.drop (ks.length - 30)).map
      (fun d => (d, most_common 10 (counter (dateSkills df d)))) }

/-- One row of `aggregates_category.parquet` as read by generate_alerts.py
(`posted_date` already converted to datetime). -/
structure CatRow where
  category_name : String
  posted_date : ℕ
  job_count : ℚ
deriving DecidableEq

/-- An alert dict. Variant-specific keys are `Option`s (`none` = key absent);
the presentation-only `message` field is not modelled. -/
structure Alert where
  type : String
  severity : String
  category? : Option String := none
  date? : Option ℕ := none
  job_count? : Option ℚ := none
  expected_count? : Option ℚ := none
  z_score? : Option ℚ := none
  pct_change? : Option ℚ := none
  skill? : Option String := none
  recent_count? : Option ℕ := none
  previous_count? : Option ℕ := none
  growth_rate? : Option ℚ := none
  generated_at : String := ""
  id : String := ""
deriving DecidableEq

/-- Embedding of `sort_values('posted_date')` key for the per-category frames. -/
def catLe (a b : CatRow) : Bool := decide (a.posted_date ≤ b.posted_date)

/-- The body of the per-category loop of `detect_spikes`. `sqrtQ` abstracts
`np.sqrt` inside the pandas rolling std; the rolling (sample) std over a single
observation is NaN (`none`), which makes the z-score comparison false, exactly
as NaN comparisons behave in pandas. -/
def spikesForCat (sqrtQ : ℚ → ℚ) (c : String) (cdata : List CatRow) : List Alert :=
  let s := sortL catLe cdata
  if s.length < 14 then []
  else
    s.enum.filterMap (fun p =>
      let hist := (s.take (p.1 + 1)).map (fun r => r.job_count)
      let win := hist.drop (hist.length - 7)
      let m := win.sum / (win.length : ℚ)
      let sd : Option ℚ :=
        if win.length < 2 then none
        else some (sqrtQ ((win.map (fun v => (v - m) ^ 2)).sum / ((win.length : ℚ) - 1)))
      match sd with
      | none => none
      | some sdv =>
        let z := (p.2.job_count - m) / (sdv + 1e-6)
        if z > 2 then
          some { type := "spike", severity := if z > 3 then "high" else "medium",
                 category? := some c, date? := some p.2.posted_date,
                 job_count? := some p.2.job_count, expected_count? := some m,
                 z_score? := some z }
        else none)

/-- Embedding of `detect_spikes` of generate_alerts.py (z-score > 2.0 against the trailing
7-day rolling mean/std; categories with fewer than 14 rows are skipped). -/
def detect_spikes (sqrtQ : ℚ → ℚ) (df : List CatRow) : List Alert :=
  (dedupF (df.map (fun r => r.category_name))).flatMap
    (fun c => spikesForCat sqrtQ c (df.filter (fun r => decide (r.category_name = c))))

/-- The body of the per-category loop of `detect_drops`. -/
def dropsForCat (c : String) (cdata : List CatRow) : List Alert :=
  let s := sortL catLe cdata
  if s.length < 14 then []
  else
    s.enum.filterMap (fun p =>
      let hist := (s.take (p.1 + 1)).map (fun r => r.job_count)
      let win := hist.drop (hist.length - 7)
      let m := win.sum / (win.length : ℚ)
      let pct := (p.2.job_count - m) / (m + 1e-6) * 100
      if pct < -30 then
        some { type := "drop", severity := if |pct| > 50 then "high" else "medium",
               category? := some c, date? := some p.2.posted_date,
               job_count? := some p.2.job_count, expected_count? := some m,
               pct_change? := some pct }
      else none)

/-- Embedding of `detect_drops` of generate_alerts.py (percent deviation below -30 against
the trailing 7-day rolling mean; categories with fewer than 14 rows skipped). -/
def detect_drops (df : List CatRow) : List Alert :=
  (dedupF (df.map (fun r => r.category_name))).flatMap
    (fun c => dropsForCat c (df.filter (fun r => decide (r.category_name = c))))

/-- Python dict-update `d[k] = d.get(k, 0) + c`: update in place (keeping the
key position) or append a new key at the end. -/
def bump (m : List (String × ℕ)) (k : String) (c : ℕ) : List (String × ℕ) :=
  match lookupL k m with
  | some _ => m.map (fun p => if p.1 = k then (p.1, p.2 + c) else p)
  | none => m ++ [(k, c)]

/-- Per-skill totals over a window of date keys (the accumulation loops of
`detect_skill_trends` / `compute_skill_velocity`). -/
def aggSkills (by_date : List (String × List (String × ℕ))) (dates : List String) :
    List (String × ℕ) :=
  dates.foldl (fun m d => ((lookupL d by_date).getD []).foldl (fun m2 p => bump m2 p.1 p.2) m) []

/-- Embedding of `sorted_dates[-14:-7]`, the previous 7-date window (used after the ≥ 14
distinct-dates guard). -/
def prevWindow (by_date : List (String × List (String × ℕ))) : List String :=
  let sd := sortL strLe (by_date.map (fun p => p.1))
  (sd.drop (sd.length - 14)).take 7

/-- Embedding of `sorted_dates[-7:]`, the most recent 7-date window. -/
def recentWindow (by_date : List (String × List (String × ℕ))) : List String :=
  let sd := sortL strLe (by_date.map (fun p => p.1))
  sd.drop (sd.length - 7)

/-- Embedding of `detect_skill_trends` of generate_alerts.py, as a function of the loaded
`skill_frequency.json` content (`none` = file missing, which returns no
alerts). A skill whose previous-window count is 0 is skipped (`continue`). -/
def detect_skill_trends (skillData : Option SkillData) : List Alert :=
  match skillData with
  | none => []
  | some sd =>
    let date_freq := sd.by_date
    if date_freq.isEmpty then []
    else if (date_freq.map (fun p => p.1)).length < 14 then []
    else
      let recent_skills := aggSkills date_freq (recentWindow date_freq)
      let previous_skills := aggSkills date_freq (prevWindow date_freq)
      recent_skills.filterMap (fun p =>
        let previous_count := (lookupL p.1 previous_skills).getD 0
        if previous_count = 0 then none
        else
          let growth_rate : ℚ := ((p.2 : ℚ) - (previous_count : ℚ)) / (previous_count : ℚ) * 100
          if growth_rate > 50 then
            some { type := "skill_trend", severity := "medium", skill? := some p.1,
                   recent_count? := some p.2, previous_count? := some previous_count,
                   growth_rate? := some growth_rate }
          else none)

/-- The metadata loop of `generate_alerts`: stamps `generated_at` and the
composite id `f"{type}_{alert.get('category', 'unknown')}_{timestamp}"`.
`nowIso` and `nowTs` are the `datetime.now().isoformat()` /
`datetime.now().timestamp()` readings. -/
def addAlertMeta (nowIso nowTs : String) (a : Alert) : Alert :=
  { a with generated_at := nowIso,
           id := a.type ++ "_" ++ (a.category?.getD "unknown") ++ "_" ++ nowTs }

/-- The alert-producing pipeline of `generate_alerts` (spikes, then drops, then
skill trends, then metadata). `df?` is the per-category aggregates file
(`none` = missing file; that error return carries no alerts). -/
def generate_alerts (sqrtQ : ℚ → ℚ) (df? : Option (List CatRow))
    (skillData : Option SkillData) (nowIso nowTs : String) : List Alert :=
  match df? with
  | none => []
  | some df =>
    ((detect_spikes sqrtQ df ++ detect_drops df) ++ detect_skill_trends skillData).map
      (addAlertMeta nowIso nowTs)

/-- A date cell: either a raw string (forecast dates are stored as `"%Y-%m-%d"`
strings by forecast_jobs.py) or an already-converted datetime value. -/
inductive DVal where
  | str (s : String)
  | dt (n : ℕ)
deriving DecidableEq

/-- The datetime value of a cell, given an abstract `pd.to_datetime` string
parser (assumed, like the real one on fixed-width ISO dates, to be an order
embedding where ordering matters). -/
def dnum (parse : String → ℕ) : DVal → ℕ
  | .str s => parse s
  | .dt n => n

/-- Embedding of `pd.to_datetime` on one cell. -/
def toDatetime (parse : String → ℕ) (v : DVal) : DVal := .dt (dnum parse v)

/-- A concrete ISO-date parser usable as `parse` on concrete inputs: the digits
of the string read as one number ("2024-01-08" ↦ 20240108), which is strictly
monotone on fixed-width ISO dates. -/
def parseIso (s : String) : ℕ :=
  s.data.foldl (fun acc c => if c.isDigit then acc * 10 + (c.toNat - 48) else acc) 0

/-- One row of `aggregates_overall.parquet` (the columns compute_jmmi reads). -/
structure TrendRow where
  posted_date : DVal
  job_count : ℚ
deriving DecidableEq

/-- One row of `forecasts.parquet`. -/
structure ForecastRow where
  date : DVal
  category_name : String
  forecast : ℚ
  forecast_lower : ℚ
  forecast_upper : ℚ
deriving DecidableEq

/-- One row of `company_stats.parquet` (the columns compute_company_diversity
reads; salary/location/date columns are unused there and omitted). -/
structure CompanyRow where
  company_name : String
  job_count : ℚ
deriving DecidableEq

/-- Result dict of `compute_posting_velocity`. On the insufficient-data path
the dict has only score/change_pct/status; the absent count keys are modelled
as 0. -/
structure PVResult where
  score : ℚ
  change_pct : ℚ
  recent_count : ℚ
  previous_count : ℚ
  status : String
deriving DecidableEq

/-- Embedding of `sort_values('posted_date')` key for the overall trends frame. -/
def trendLe (parse : String → ℕ) (a b : TrendRow) : Bool :=
  decide (dnum parse a.posted_date ≤ dnum parse b.posted_date)

/-- Embedding of `compute_posting_velocity` of compute_jmmi.py: last-7 vs previous-7 sums of
`job_count` in date order; the percent change is guarded by an explicit
`previous_7d == 0` test; score = clamp(50 + change_pct, 0, 100). -/
def compute_posting_velocity (parse : String → ℕ) (trends : List TrendRow) : PVResult :=
  if trends.length < 14 then
    { score := 50, change_pct := 0, recent_count := 0, previous_count := 0,
      status := "insufficient_data" }
  else
    let s := sortL (trendLe parse) trends
    let recent_7d := ((s.drop (s.length - 7)).map (fun r => r.job_count)).sum
    let previous_7d := (((s.drop (s.length - 14)).take 7).map (fun r => r.job_count)).sum
    let change_pct := if previous_7d = 0 then 0 else (recent_7d - previous_7d) / previous_7d * 100
    let score := min 100 (max 0 (50 + change_pct))
    let status := if change_pct > 10 then "growing"
      else if change_pct < -10 then "declining" else "stable"
    { score := round1 score, change_pct := round1 change_pct,
      recent_count := recent_7d, previous_count := previous_7d, status := status }

/-- One entry of the `trending` list of `compute_skill_velocity` (its
`growth_pct` is stored already rounded, and the list is then sorted on it). -/
structure TrendingSkill where
  skill : String
  growth_pct : ℚ
  recent_count : ℕ
  previous_count : ℕ
deriving DecidableEq

/-- Result dict of `compute_skill_velocity`. -/
structure SVResult where
  score : ℚ
  trending_skills_count : ℕ
  trending_skills : List TrendingSkill
  status : String
deriving DecidableEq

/-- Embedding of `compute_skill_velocity` of compute_jmmi.py: skills with > 50% growth of
the recent 7-date window total over the previous 7-date window total, capped at
10; score = min(100, 30 + 7 × count). -/
def compute_skill_velocity (sd : SkillData) : SVResult :=
  if sd.by_date.length < 14 then
    { score := 50, trending_skills_count := 0, trending_skills := [],
      status := "insufficient_data" }
  else
    let recent_skills := aggSkills sd.by_date (recentWindow sd.by_date)
    let previous_skills := aggSkills sd.by_date (prevWindow sd.by_date)
    let trending0 := recent_skills.filterMap (fun p =>
      let previous_count := (lookupL p.1 previous_skills).getD 0
      if previous_count > 0 then
        let growth_pct : ℚ := ((p.2 : ℚ) - (previous_count : ℚ)) / (previous_count : ℚ) * 100
        if growth_pct > 50 then
          some { skill := p.1, growth_pct := round1 growth_pct,
                 recent_count := p.2, previous_count := previous_count }
        else none
      else none)
    let trending := (sortL (fun a b => decide (b.growth_pct ≤ a.growth_pct)) trending0).take 10
    let score := min 100 (30 + (trending.length : ℚ) * 7)
    let status := if trending.length ≥ 5 then "high_momentum"
      else if trending.length ≥ 2 then "moderate" else "low"
    { score := round1 score, trending_skills_count := trending.length,
      trending_skills := trending.take 5, status := status }

/-- Result dict of `compute_forecast_accuracy`. -/
structure FAResult where
  score : ℚ
  mape : Option ℚ
  forecast : Option ℚ
  actual : Option ℚ
  status : String
deriving DecidableEq

/-- Embedding of `compute_forecast_accuracy` of compute_jmmi.py. The function assigns the
converted date columns back onto the two argument DataFrames
(`trends['posted_date'] = pd.to_datetime(...)`, `forecasts['date'] = ...`), so
it is modelled state-passing style: it returns the two tables as left by the
call together with the result dict. An `.iloc[-1]` on an empty selection (no
actual row on or before the latest forecast date) raises IndexError, which the
surrounding `except` turns into the neutral `error` result. -/
def compute_forecast_accuracy (parse : String → ℕ) (trends : List TrendRow)
    (forecasts : List ForecastRow) : List TrendRow × List ForecastRow × FAResult :=
  if forecasts.isEmpty ∨ trends.length < 7 then
    (trends, forecasts,
      { score := 50, mape := none, forecast := none, actual := none,
        status := "insufficient_data" })
  else
    let trends2 := trends.map (fun r => { r with posted_date := toDatetime parse r.posted_date })
    let forecasts2 := forecasts.map (fun r => { r with date := toDatetime parse r.date })
    let latest_forecast_date := (forecasts2.map (fun r => dnum parse r.date)).foldl max 0
    match (trends2.filter
        (fun r => decide (dnum parse r.posted_date ≤ latest_forecast_date))).getLast? with
    | none =>
      (trends2, forecasts2,
        { score := 50, mape := none, forecast := none, actual := none, status := "error" })
    | some lastRow =>
      if lastRow.job_count = 0 then
        (trends2, forecasts2,
          { score := 50, mape := none, forecast := none, actual := none,
            status := "no_actual_data" })
      else
        match (forecasts2.filter
            (fun r => decide (dnum parse r.date = latest_forecast_date))).head? with
        | none =>
          (trends2, forecasts2,
            { score := 50, mape := none, forecast := none, actual := none,
              status := "no_forecast_match" })
        | some frow =>
          let mape := |(lastRow.job_count - frow.forecast) / lastRow.job_count| * 100
          let score := max 0 (100 - mape * 2.5)
          let status := if mape < 15 then "predictable"
            else if mape < 30 then "moderate" else "volatile"
          (trends2, forecasts2,
            { score := round1 score, mape := some (round1 mape),
              forecast := some (round0 frow.forecast), actual := some lastRow.job_count,
              status := status })

/-- Result dict of `compute_market_activity`. -/
structure MAResult where
  score : ℚ
  total_alerts : ℕ
  spikes : ℕ
  drops : ℕ
  skill_trends : ℕ
  status : String
deriving DecidableEq

/-- Embedding of `compute_market_activity` of compute_jmmi.py. `recent_cutoff` is the
`(datetime.now() - timedelta(days=7)).isoformat()` string; ISO timestamps
compare lexicographically, which python string `>=` performs. -/
def compute_market_activity (recent_cutoff : String) (alerts : List Alert) : MAResult :=
  let recent_alerts := alerts.filter (fun a => strLe recent_cutoff a.generated_at)
  let spikes := (recent_alerts.filter (fun a => decide (a.type = "spike"))).length
  let drops := (recent_alerts.filter (fun a => decide (a.type = "drop"))).length
  let skill_trends := (recent_alerts.filter (fun a => decide (a.type = "skill_trend"))).length
  let spike_score := min 100 (30 + (spikes : ℚ) * 14)
  let final_score := max 0 (spike_score - (drops : ℚ) * 10)
  let status := if spikes ≥ 3 then "active" else if spikes ≥ 1 then "moderate" else "quiet"
  { score := round1 final_score, total_alerts := recent_alerts.length, spikes := spikes,
    drops := drops, skill_trends := skill_trends, status := status }

/-- Result dict of `compute_company_diversity`. -/
structure CDResult where
  score : ℚ
  unique_companies : ℕ
  top_companies : List (String × ℚ)
  status : String
deriving DecidableEq

/-- Embedding of `compute_company_diversity` of compute_jmmi.py: score = min(100,
companies/50 × 100); `nlargest(5, 'job_count')` keeps the five largest by
count, ties by position. -/
def compute_company_diversity (companies : List CompanyRow) : CDResult :=
  let unique_companies := companies.length
  let score := min 100 ((unique_companies : ℚ) / 50 * 100)
  let top_companies :=
    ((sortL (fun a b => decide (b.job_count ≤ a.job_count)) companies).take 5).map
      (fun c => (c.company_name, c.job_count))
  let status := if unique_companies ≥ 30 then "diverse"
    else if unique_companies ≥ 15 then "moderate" else "concentrated"
  { score := round1 score, unique_companies := unique_companies,
    top_companies := top_companies, status := status }

/-- Embedding of `interpret_jmmi` of compute_jmmi.py; only the band label is modelled (the
other fields are fixed presentation strings attached to the same banding). -/
structure Interpretation where
  label : String
deriving DecidableEq

/-- Interpretation bands: ≥80 Hot, ≥60 Growing, ≥40 Stable, ≥20 Cooling,
else Cold. -/
def interpret_jmmi (score : ℚ) : Interpretation :=
  if score ≥ 80 then { label := "Hot Market" }
  else if score ≥ 60 then { label := "Growing Market" }
  else if score ≥ 40 then { label := "Stable Market" }
  else if score ≥ 20 then { label := "Cooling Market" }
  else { label := "Cold Market" }

/-- Embedding of `generate_recommendation` of compute_jmmi.py. `fmt0` is the `:.0f` float
formatter. In the ≥ 80 branch the source indexes `trending_skills[0]`, which
raises IndexError when the list is empty (`none`); the exception escapes to the
caller's `except`. -/
def generate_recommendation (fmt0 : ℚ → String) (jmmi_score : ℚ) (pv : PVResult)
    (sv : SVResult) : Option String :=
  if jmmi_score ≥ 80 then
    match sv.trending_skills with
    | [] => none
    | t :: _ =>
      some ("Market is hot! Consider learning " ++ t.skill ++ " to capitalize on " ++
        fmt0 pv.change_pct ++ "% growth in postings.")
  else if jmmi_score ≥ 60 then
    some "Market is growing steadily. Good time to explore new opportunities or negotiate raises."
  else if jmmi_score ≥ 40 then
    some "Market is stable. Focus on differentiation through skills and networking."
  else if jmmi_score ≥ 20 then
    some "Market is cooling. Prioritize upskilling in emerging technologies to stay competitive."
  else
    some "Market is cold. Focus on retention, networking, and building expertise in resilient skills."

/-- The JMMI record written to `jmmi.json` (static methodology block omitted). -/
structure Jmmi where
  overall_score : ℚ
  posting_velocity : PVResult
  skill_velocity : SVResult
  forecast_accuracy : FAResult
  market_activity : MAResult
  company_diversity : CDResult
  interpretation : Interpretation
  recommendation : String
  calculated_at : String
deriving DecidableEq

/-- Embedding of `create_default_jmmi` of compute_jmmi.py: every component score 50.0 with
status `insufficient_data`, overall 50.0, interpretation of 50.0, fixed
advisory recommendation. -/
def create_default_jmmi (now : String) : Jmmi :=
  { overall_score := 50,
    posting_velocity := { score := 50, change_pct := 0, recent_count := 0, previous_count := 0,
                          status := "insufficient_data" },
    skill_velocity := { score := 50, trending_skills_count := 0, trending_skills := [],
                        status := "insufficient_data" },
    forecast_accuracy := { score := 50, mape := none, forecast := none, actual := none,
                           status := "insufficient_data" },
    market_activity := { score := 50, total_alerts := 0, spikes := 0, drops := 0,
                         skill_trends := 0, status := "insufficient_data" },
    company_diversity := { score := 50, unique_companies := 0, top_companies := [],
                           status := "insufficient_data" },
    interpretation := interpret_jmmi 50,
    recommendation :=
      "Insufficient data for accurate JMMI calculation. Run the ETL pipeline to collect more data.",
    calculated_at := now }

/-- The five curated input files of `compute_jmmi` (`none` = file absent on
disk). -/
structure JmmiInputs where
  trends : Option (List TrendRow)
  skills : Option SkillData
  forecasts : Option (List ForecastRow)
  alerts : Option (List Alert)
  companies : Option (List CompanyRow)

/-- Embedding of `compute_jmmi` of compute_jmmi.py. If any required file is missing the
composer short-circuits to the default index; otherwise the five components are
computed and combined with weights 0.30/0.25/0.20/0.15/0.10 and the overall
score rounded to one decimal. A `none` result models the `success: False`
return from the caught IndexError in `generate_recommendation`. -/
def compute_jmmi (parse : String → ℕ) (recent_cutoff now : String) (fmt0 : ℚ → String)
    (inp : JmmiInputs) : Option Jmmi :=
  match inp.trends, inp.skills, inp.forecasts, inp.alerts, inp.companies with
  | some trends, some skills, some forecasts, some alerts, some companies =>
    let pv := compute_posting_velocity parse trends
    let sv := compute_skill_velocity skills
    let fa := (compute_forecast_accuracy parse trends forecasts).2.2
    let ma := compute_market_activity recent_cutoff alerts
    let cd := compute_company_diversity companies
    let jmmi_score := pv.score * 0.30 + sv.score * 0.25 + fa.score * 0.20 +
      ma.score * 0.15 + cd.score * 0.10
    match generate_recommendation fmt0 jmmi_score pv sv with
    | none => none
    | some rec =>
      some { overall_score := round1 jmmi_score,
             posting_velocity := pv, skill_velocity := sv, forecast_accuracy := fa,
             market_activity := ma, company_diversity := cd,
             interpretation := interpret_jmmi jmmi_score,
             recommendation := rec, calculated_at := now }
  | _, _, _, _, _ => some (create_default_jmmi now)

/-- Concrete 14-day series whose previous-7-day window sums to zero. -/
def trendsZeroPrev : List TrendRow :=
  [⟨.dt 1, 0⟩, ⟨.dt 2, 0⟩, ⟨.dt 3, 0⟩, ⟨.dt 4, 0⟩, ⟨.dt 5, 0⟩, ⟨.dt 6, 0⟩, ⟨.dt 7, 0⟩,
   ⟨.dt 8, 5⟩, ⟨.dt 9, 5⟩, ⟨.dt 10, 5⟩, ⟨.dt 11, 5⟩, ⟨.dt 12, 5⟩, ⟨.dt 13, 5⟩, ⟨.dt 14, 5⟩]

/-- Thirteen days of the category "Data" with a huge final deviation. -/
def dataRows13 : List CatRow :=
  [⟨"Data", 1, 5⟩, ⟨"Data", 2, 5⟩, ⟨"Data", 3, 5⟩, ⟨"Data", 4, 5⟩, ⟨"Data", 5, 5⟩,
   ⟨"Data", 6, 5⟩, ⟨"Data", 7, 5⟩, ⟨"Data", 8, 5⟩, ⟨"Data", 9, 5⟩, ⟨"Data", 10, 5⟩,
   ⟨"Data", 11, 5⟩, ⟨"Data", 12, 5⟩, ⟨"Data", 13, 500⟩]

/-- Fourteen by_date keys in which "react" occurs only in the recent window
(previous-window total 0) with a positive recent count. -/
def sdReact : SkillData :=
  { overall := [], by_category := [],
    by_date := [("d01", [("python", 2)]), ("d02", []), ("d03", []), ("d04", []),
                ("d05", []), ("d06", []), ("d07", []), ("d08", [("react", 9), ("python", 3)]),
                ("d09", []), ("d10", []), ("d11", []), ("d12", []), ("d13", []), ("d14", [])] }

/-- A by_date table with only 13 keys. -/
def sdShort : SkillData :=
  { overall := [], by_category := [],
    by_date := [("d01", [("python", 1)]), ("d02", []), ("d03", []), ("d04", []),
                ("d05", []), ("d06", []), ("d07", []), ("d08", [("python", 99)]),
                ("d09", []), ("d10", []), ("d11", []), ("d12", []), ("d13", [])] }

/-- A complete concrete input set (all five files present but empty). -/
def inpAllPresent : JmmiInputs :=
  { trends := some [], skills := some { overall := [], by_category := [], by_date := [] },
    forecasts := some [], alerts := some [], companies := some [] }

/-- The index compute_jmmi produces for `inpAllPresent`. -/
def jmmiAllPresent : Jmmi :=
  { overall_score := 42,
    posting_velocity := { score := 50, change_pct := 0, recent_count := 0, previous_count := 0,
                          status := "insufficient_data" },
    skill_velocity := { score := 50, trending_skills_count := 0, trending_skills := [],
                        status := "insufficient_data" },
    forecast_accuracy := { score := 50, mape := none, forecast := none, actual := none,
                           status := "insufficient_data" },
    market_activity := { score := 30, total_alerts := 0, spikes := 0, drops := 0,
                         skill_trends := 0, status := "quiet" },
    company_diversity := { score := 0, unique_companies := 0, top_companies := [],
                           status := "concentrated" },
    interpretation := { label := "Stable Market" },
    recommendation := "Market is stable. Focus on differentiation through skills and networking.",
    calculated_at := "n" }

/-- The result dict of the forecast scorer. -/
def faResult (parse : String → ℕ) (trends : List TrendRow) (forecasts : List ForecastRow) :
    FAResult :=
  (compute_forecast_accuracy parse trends forecasts).2.2

/-- The value of `forecasts['date'].max()` over the raw table. -/
def latestForecastDate (parse : String → ℕ) (forecasts : List ForecastRow) : ℕ :=
  (forecasts.map (fun r => dnum parse r.date)).foldl max 0

/-- The selection `trends[trends['posted_date'] <= latest_forecast_date]` over
the raw table. -/
def actualsOnOrBefore (parse : String → ℕ) (D : ℕ) (trends : List TrendRow) : List TrendRow :=
  trends.filter (fun r => decide (dnum parse r.posted_date ≤ D))

/-- The selection `forecasts[forecasts['date'] == latest_forecast_date]` over
the raw table. -/
def forecastRowsAt (parse : String → ℕ) (D : ℕ) (forecasts : List ForecastRow) :
    List ForecastRow :=
  forecasts.filter (fun r => decide (dnum parse r.date = D))

/-- Seven actual rows that all lie after the only forecast date. -/
def trendsLate : List TrendRow :=
  [⟨.dt 30, 10⟩, ⟨.dt 31, 10⟩, ⟨.dt 32, 10⟩, ⟨.dt 33, 10⟩, ⟨.dt 34, 10⟩, ⟨.dt 35, 10⟩,
   ⟨.dt 36, 10⟩]

/-- A forecast table whose single (hence latest) date precedes every actual. -/
def fcEarly : List ForecastRow := [⟨.dt 5, "All", 5, 4, 6⟩]

/-- Seven actual rows ending at the latest forecast date. -/
def trendsHappy : List TrendRow :=
  [⟨.dt 1, 10⟩, ⟨.dt 2, 10⟩, ⟨.dt 3, 10⟩, ⟨.dt 4, 10⟩, ⟨.dt 5, 10⟩, ⟨.dt 6, 10⟩, ⟨.dt 7, 10⟩]

/-- A forecast table whose latest row sits on day 7 with forecast 5. -/
def fcHappy : List ForecastRow := [⟨.dt 7, "All", 5, 4, 6⟩]

/-- A by_date table whose only trending skill is "python". -/
def sdPy : SkillData :=
  { overall := [], by_category := [],
    by_date := [("d01", [("python", 1)]), ("d02", []), ("d03", []), ("d04", []),
                ("d05", []), ("d06", []), ("d07", []), ("d08", [("python", 3)]),
                ("d09", []), ("d10", []), ("d11", []), ("d12", []), ("d13", []), ("d14", [])] }

/-- The same table with the skill renamed to "rust". -/
def sdRu : SkillData :=
  { overall := [], by_category := [],
    by_date := [("d01", [("rust", 1)]), ("d02", []), ("d03", []), ("d04", []),
                ("d05", []), ("d06", []), ("d07", []), ("d08", [("rust", 3)]),
                ("d09", []), ("d10", []), ("d11", []), ("d12", []), ("d13", []), ("d14", [])] }

/-- The single alert produced from `sdPy`. -/
def alertPy : Alert :=
  { type := "skill_trend", severity := "medium", skill? := some "python",
    recent_count? := some 3, previous_count? := some 1, growth_rate? := some 200,
    generated_at := "T", id := "skill_trend_unknown_123.456" }

/-- The single alert produced from `sdRu`. -/
def alertRu : Alert :=
  { type := "skill_trend", severity := "medium", skill? := some "rust",
    recent_count? := some 3, previous_count? := some 1, growth_rate? := some 200,
    generated_at := "T", id := "skill_trend_unknown_123.456" }

/-- The job_count series of one group of the sorted aggregated frame, in date
order. -/
def groupSeries (df : List AggRow) (g : String) : List ℚ :=
  ((sortL aggLe df).filter (fun r => decide (r.group = g))).map (fun r => r.job_count)

/-- The trailing window of the first `j+1` entries of a series: the last
`min 7 (j+1)` of them. -/
def trailingWindow (F : List ℚ) (j : ℕ) : List ℚ := (F.take (j + 1)).drop (j + 1 - 7)

/-- Three days of one group. -/
def aggThree : List AggRow := [⟨1, "All", 1⟩, ⟨2, "All", 2⟩, ⟨3, "All", 6⟩]

/-- Thirty-one rows, one per distinct date, all in category "Data". -/
def dfDates31 : List JobRow :=
  [⟨.arr ["python"], "Data", "d01"⟩,
   ⟨.arr ["python"], "Data", "d02"⟩,
   ⟨.arr ["python"], "Data", "d03"⟩,
   ⟨.arr ["python"], "Data", "d04"⟩,
   ⟨.arr ["python"], "Data", "d05"⟩,
   ⟨.arr ["python"], "Data", "d06"⟩,
   ⟨.arr ["python"], "Data", "d07"⟩,
   ⟨.arr ["python"], "Data", "d08"⟩,
   ⟨.arr ["python"], "Data", "d09"⟩,
   ⟨.arr ["python"], "Data", "d10"⟩,
   ⟨.arr ["python"], "Data", "d11"⟩,
   ⟨.arr ["python"], "Data", "d12"⟩,
   ⟨.arr ["python"], "Data", "d13"⟩,
   ⟨.arr ["python"], "Data", "d14"⟩,
   ⟨.arr ["python"], "Data", "d15"⟩,
   ⟨.arr ["python"], "Data", "d16"⟩,
   ⟨.arr ["python"], "Data", "d17"⟩,
   ⟨.arr ["python"], "Data", "d18"⟩,
   ⟨.arr ["python"], "Data", "d19"⟩,
   ⟨.arr ["python"], "Data", "d20"⟩,
   ⟨.arr ["python"], "Data", "d21"⟩,
   ⟨.arr ["python"], "Data", "d22"⟩,
   ⟨.arr ["python"], "Data", "d23"⟩,
   ⟨.arr ["python"], "Data", "d24"⟩,
   ⟨.arr ["python"], "Data", "d25"⟩,
   ⟨.arr ["python"], "Data", "d26"⟩,
   ⟨.arr ["python"], "Data", "d27"⟩,
   ⟨.arr ["python"], "Data", "d28"⟩,
   ⟨.arr ["python"], "Data", "d29"⟩,
   ⟨.arr ["python"], "Data", "d30"⟩,
   ⟨.arr ["python"], "Data", "d31"⟩]

theorem lexLe_total : ∀ s t, lexLe s t = true ∨ lexLe t s = true := by
  intro s
  induction s with
  | nil => intro t; left; cases t <;> rfl
  | cons a as ih =>
    intro t
    cases t with
    | nil => right; rfl
    | cons b bs =>
      by_cases h1 : a.toNat < b.toNat
      · left; simp [lexLe, h1]
      · by_cases h2 : b.toNat < a.toNat
        · right; simp [lexLe, h2]
        · rcases ih bs with h | h
          · left; simp [lexLe, h1, h2, h]
          · right; simp [lexLe, h1, h2, h]

theorem lexLe_trans : ∀ r s t, lexLe r s = true → lexLe s t = true → lexLe r t = true := by
  intro r
  induction r with
  | nil => intro s t _ _; rfl
  | cons a as ih =>
    intro s t hrs hst
    cases s with
    | nil => simp [lexLe] at hrs
    | cons b bs =>
      cases t with
      | nil => simp [lexLe] at hst
      | cons c cs =>
        simp only [lexLe] at hrs hst ⊢
        by_cases hab : a.toNat < b.toNat
        · by_cases hbc : b.toNat < c.toNat
          · have : a.toNat < c.toNat := lt_trans hab hbc
            simp [this]
          · by_cases hcb : c.toNat < b.toNat
            · simp [hbc, hcb] at hst
            · have : a.toNat < c.toNat := by omega
              simp [this]
        · by_cases hba : b.toNat < a.toNat
          · simp [hab, hba] at hrs
          · have hae : a.toNat = b.toNat := by omega
            by_cases hbc : b.toNat < c.toNat
            · have : a.toNat < c.toNat := by omega
              simp [this]
            · by_cases hcb : c.toNat < b.toNat
              · simp [hbc, hcb] at hst
              · have hbe : b.toNat = c.toNat := by omega
                have hac : ¬ a.toNat < c.toNat := by omega
                have hca : ¬ c.toNat < a.toNat := by omega
                simp only [hac, if_false, hca, if_true]
                exact ih bs cs (by simpa [hab, hba] using hrs) (by simpa [hbc, hcb] using hst)

theorem strLe_total (s t : String) : strLe s t = true ∨ strLe t s = true :=
  lexLe_total s.data t.data

theorem strLe_trans {r s t : String} (h1 : strLe r s = true) (h2 : strLe s t = true) :
    strLe r t = true :=
  lexLe_trans r.data s.data t.data h1 h2

theorem insertS_perm {α : Type} (le : α → α → Bool) (x : α) :
    ∀ l : List α, (insertS le x l).Perm (x :: l) := by
  intro l
  induction l with
  | nil => simp [insertS]
  | cons y ys ih =>
    by_cases h : le x y
    · simp [insertS, h]
    · simp only [insertS, h, if_false]
      exact ((ih.cons y).trans (List.Perm.swap x y ys))

theorem sortL_perm {α : Type} (le : α → α → Bool) (l : List α) : (sortL le l).Perm l := by
  induction l with
  | nil => simp [sortL]
  | cons a t ih =>
    have : sortL le (a :: t) = insertS le a (sortL le t) := rfl
    rw [this]
    exact (insertS_perm le a (sortL le t)).trans (ih.cons a)

theorem mem_insertS {α : Type} (le : α → α → Bool) (x : α) (l : List α) (y : α) :
    y ∈ insertS le x l ↔ y = x ∨ y ∈ l := by
  rw [(insertS_perm le x l).mem_iff]
  simp

theorem insertS_pairwise {α : Type} (le : α → α → Bool)
    (htrans : ∀ a b c, le a b = true → le b c = true → le a c = true)
    (htot : ∀ a b, le a b = true ∨ le b a = true) (x : α) :
    ∀ l : List α, l.Pairwise (fun a b => le a b = true) →
      (insertS le x l).Pairwise (fun a b => le a b = true) := by
  intro l
  induction l with
  | nil => intro _; simp [insertS]
  | cons y ys ih =>
    intro hp
    by_cases h : le x y
    · simp only [insertS, h, if_true]
      refine List.Pairwise.cons ?_ hp
      intro z hz
      rcases List.mem_cons.mp hz with rfl | hz
      · exact h
      · exact htrans x y z h (List.rel_of_pairwise_cons hp hz)
    · simp only [insertS, h, if_false]
      refine List.Pairwise.cons ?_ (ih (List.Pairwise.sublist (List.sublist_cons_self y ys) hp))
      intro z hz
      rcases (mem_insertS le x ys z).mp hz with rfl | hz
      · rcases htot z y with h2 | h2
        · exact absurd h2 (by simpa using h)
        · exact h2
      · exact List.rel_of_pairwise_cons hp hz

theorem sortL_pairwise {α : Type} (le : α → α → Bool)
    (htrans : ∀ a b c, le a b = true → le b c = true → le a c = true)
    (htot : ∀ a b, le a b = true ∨ le b a = true) (l : List α) :
    (sortL le l).Pairwise (fun a b => le a b = true) := by
  induction l with
  | nil => simp [sortL]
  | cons a t ih => exact insertS_pairwise le htrans htot a (sortL le t) ih

theorem sortL_length {α : Type} (le : α → α → Bool) (l : List α) :
    (sortL le l).length = l.length :=
  (sortL_perm le l).length_eq

theorem sortL_mem {α : Type} (le : α → α → Bool) (l : List α) (a : α) :
    a ∈ sortL le l ↔ a ∈ l :=
  (sortL_perm le l).mem_iff

theorem mem_dedupFgo {α : Type} [DecidableEq α] :
    ∀ (l seen : List α) (a : α), a ∈ dedupFgo l seen ↔ a ∈ l ∧ a ∉ seen := by
  intro l
  induction l with
  | nil => intro seen a; simp [dedupFgo]
  | cons b t ih =>
    intro seen a
    by_cases hb : b ∈ seen
    · simp only [dedupFgo, hb, if_true, ih]
      constructor
      · rintro ⟨h1, h2⟩; exact ⟨List.mem_cons_of_mem b h1, h2⟩
      · rintro ⟨h1, h2⟩
        rcases List.mem_cons.mp h1 with rfl | h1
        · exact absurd hb h2
        · exact ⟨h1, h2⟩
    · simp only [dedupFgo, hb, if_false]
      constructor
      · intro h
        rcases List.mem_cons.mp h with rfl | h
        · exact ⟨List.mem_cons_self a t, hb⟩
        · rcases (ih (b :: seen) a).mp h with ⟨h1, h2⟩
          exact ⟨List.mem_cons_of_mem b h1, fun hc => h2 (List.mem_cons_of_mem b hc)⟩
      · rintro ⟨h1, h2⟩
        rcases List.mem_cons.mp h1 with rfl | h1
        · exact List.mem_cons_self a _
        · by_cases hba : a = b
          · subst hba; exact List.mem_cons_self a _
          · refine List.mem_cons_of_mem b ((ih (b :: seen) a).mpr ⟨h1, fun hc => ?_⟩)
            rcases List.mem_cons.mp hc with h | h
            · exact hba h
            · exact h2 h

theorem nodup_dedupFgo {α : Type} [DecidableEq α] :
    ∀ (l seen : List α), (dedupFgo l seen).Nodup := by
  intro l
  induction l with
  | nil => intro seen; simp [dedupFgo]
  | cons b t ih =>
    intro seen
    by_cases hb : b ∈ seen
    · simpa [dedupFgo, hb] using ih seen
    · simp only [dedupFgo, hb, if_false]
      refine List.Nodup.cons ?_ (ih (b :: seen))
      intro hc
      exact ((mem_dedupFgo t (b :: seen) b).mp hc).2 (List.mem_cons_self b seen)

theorem mem_dedupF {α : Type} [DecidableEq α] (l : List α) (a : α) :
    a ∈ dedupF l ↔ a ∈ l := by
  simp [dedupF, mem_dedupFgo]

theorem nodup_dedupF {α : Type} [DecidableEq α] (l : List α) : (dedupF l).Nodup :=
  nodup_dedupFgo l []

theorem mem_counter {xs : List String} {p : String × ℕ} (h : p ∈ counter xs) :
    p.2 = xs.count p.1 ∧ p.1 ∈ xs := by
  rcases List.mem_map.mp h with ⟨k, hk, rfl⟩
  exact ⟨rfl, (mem_dedupF xs k).mp hk⟩

theorem counter_keys (xs : List String) : (counter xs).map Prod.fst = dedupF xs := by
  simp only [counter, List.map_map]
  induction dedupF xs with
  | nil => rfl
  | cons h t ih => simpa using ih

theorem counter_keys_nodup (xs : List String) : ((counter xs).map Prod.fst).Nodup := by
  rw [counter_keys]
  exact nodup_dedupF xs

/-- Monotonicity of partial sums of a list of naturals. -/
theorem take_sum_mono (l : List ℕ) {m n : ℕ} (h : m ≤ n) :
    (l.take m).sum ≤ (l.take n).sum := by
  have hn : n = m + (n - m) := by omega
  rw [hn, List.take_add, List.sum_append]
  exact Nat.le_add_right _ _

theorem take_sum_le_succ : ∀ (l : List ℕ) (a m : ℕ), (∀ b ∈ l, b ≤ a) →
    (l.take (m + 1)).sum ≤ a + (l.take m).sum := by
  intro l
  induction l with
  | nil => intro a m _; simp
  | cons b t ih =>
    intro a m hb
    cases m with
    | zero =>
      simp only [List.take_succ_cons, List.take_zero, List.sum_cons, List.sum_nil]
      have := hb b (List.mem_cons_self b t)
      omega
    | succ k =>
      simp only [List.take_succ_cons, List.sum_cons]
      have := ih a k (fun c hc => hb c (List.mem_cons_of_mem b hc))
      omega

/-- The sum of a sublist of a descending-sorted list of naturals is at most the
sum of the same number of leading entries. -/
theorem sublist_sum_le_take {s l : List ℕ} (h : s.Sublist l)
    (hp : l.Pairwise (fun a b => b ≤ a)) : s.sum ≤ (l.take s.length).sum := by
  induction h with
  | slnil => simp
  | @cons l₁ l₂ a h ih =>
    have hp2 : l₂.Pairwise (fun a b => b ≤ a) := hp.sublist (List.sublist_cons_self a l₂)
    have hb : ∀ b ∈ l₂, b ≤ a := fun b hb => List.rel_of_pairwise_cons hp hb
    refine le_trans (ih hp2) ?_
    cases hl : l₁.length with
    | zero => simp
    | succ k =>
      rw [List.take_succ_cons, List.sum_cons]
      exact take_sum_le_succ l₂ a k hb
  | @cons₂ l₁ l₂ a h ih =>
    have hp2 : l₂.Pairwise (fun a b => b ≤ a) := hp.sublist (List.sublist_cons_self a l₂)
    simp only [List.length_cons, List.take_succ_cons, List.sum_cons]
    exact Nat.add_le_add_left (ih hp2) a

/-- Subpermutation version of `sublist_sum_le_take`, with an arbitrary cutoff
at least the selection size. -/
theorem subperm_sum_le_take {s l : List ℕ} {n : ℕ} (h : s.Subperm l)
    (hp : l.Pairwise (fun a b => b ≤ a)) (hn : s.length ≤ n) :
    s.sum ≤ (l.take n).sum := by
  rcases h with ⟨s2, hperm, hsub⟩
  calc s.sum = s2.sum := (hperm.sum_eq).symm
    _ ≤ (l.take s2.length).sum := sublist_sum_le_take hsub hp
    _ ≤ (l.take n).sum := take_sum_mono l (by rw [hperm.length_eq]; exact hn)

theorem roundE_nonneg {x : ℚ} (h : 0 ≤ x) : 0 ≤ roundE x := by
  have hf : (0 : ℤ) ≤ Int.floor x := Int.floor_nonneg.mpr h
  unfold roundE
  split_ifs <;> omega

theorem roundE_le {x : ℚ} {B : ℤ} (h : x ≤ (B : ℚ)) : roundE x ≤ B := by
  have hf : Int.floor x ≤ B := by
    have := Int.floor_le_floor h
    simpa using this
  have hcase : x - Int.floor x ≥ 1/2 → Int.floor x + 1 ≤ B := by
    intro hr
    have hlt : (Int.floor x : ℚ) < x := by linarith
    have : Int.floor x < B := by
      by_contra hc
      push_neg at hc
      have : B ≤ Int.floor x := hc
      have hxB : x ≤ (Int.floor x : ℚ) := le_trans h (by exact_mod_cast this)
      linarith
    omega
  unfold roundE
  split_ifs with h1 h2 h3
  · exact hf
  · exact hcase (by linarith)
  · exact hf
  · exact hcase (by linarith)

theorem round1_nonneg {q : ℚ} (h : 0 ≤ q) : 0 ≤ round1 q := by
  unfold round1
  have : (0 : ℤ) ≤ roundE (10 * q) := roundE_nonneg (by linarith)
  have h2 : (0 : ℚ) ≤ (roundE (10 * q) : ℚ) := by exact_mod_cast this
  linarith

theorem round1_le (Bi : ℤ) {q B : ℚ} (hB : (Bi : ℚ) = 10 * B) (h : q ≤ B) :
    round1 q ≤ B := by
  unfold round1
  have : roundE (10 * q) ≤ Bi := roundE_le (by rw [hB]; linarith)
  have h2 : (roundE (10 * q) : ℚ) ≤ (Bi : ℚ) := by exact_mod_cast this
  rw [hB] at h2
  linarith

/-- C2: if any of the five required upstream input files (overall aggregates,
skill frequency table, forecasts, alerts, company stats) is entirely absent,
the composer does not raise: it returns the default index in which every
component score is 50.0, the overall score is 50.0, and the interpretation is
the Stable band (label "Stable Market"). -/
theorem jmmi_default_on_missing_inputs (parse : String → ℕ) (recent_cutoff now : String)
    (fmt0 : ℚ → String) (inp : JmmiInputs)
    (h : inp.trends = none ∨ inp.skills = none ∨ inp.forecasts = none ∨
         inp.alerts = none ∨ inp.companies = none) :
    compute_jmmi parse recent_cutoff now fmt0 inp = some (create_default_jmmi now) ∧
    (create_default_jmmi now).overall_score = 50 ∧
    (create_default_jmmi now).posting_velocity.score = 50 ∧
    (create_default_jmmi now).skill_velocity.score = 50 ∧
    (create_default_jmmi now).forecast_accuracy.score = 50 ∧
    (create_default_jmmi now).market_activity.score = 50 ∧
    (create_default_jmmi now).company_diversity.score = 50 ∧
    (create_default_jmmi now).interpretation.label = "Stable Market" := by
  refine ⟨?_, rfl, rfl, rfl, rfl, rfl, rfl, ?_⟩
  · obtain ⟨t, s, f, a, c⟩ := inp
    rcases t <;> rcases s <;> rcases f <;> rcases a <;> rcases c <;>
      simp_all [compute_jmmi]
  · show (interpret_jmmi 50).label = "Stable Market"
    norm_num [interpret_jmmi]

/-- Witness for C2 at a concrete input with all five files absent. -/
theorem jmmi_default_on_missing_inputs_witness :
    compute_jmmi parseIso "c" "n" (fun _ => "")
        { trends := none, skills := none, forecasts := none, alerts := none,
          companies := none } = some (create_default_jmmi "n") ∧
    (create_default_jmmi "n").overall_score = 50 ∧
    (create_default_jmmi "n").interpretation.label = "Stable Market" := by
  have h := jmmi_default_on_missing_inputs parseIso "c" "n" (fun _ => "")
    { trends := none, skills := none, forecasts := none, alerts := none, companies := none }
    (Or.inl rfl)
  exact ⟨h.1, h.2.1, h.2.2.2.2.2.2.2⟩

/-- C10: on an overall trends series with at least 14 rows whose
previous-7-day job_count sum (rows -14..-8 in date order) is exactly 0,
compute_posting_velocity does not divide by zero: the explicit
`previous_7d == 0` guard yields change_pct = 0.0 and score = 50.0. -/
theorem posting_velocity_zero_previous_window (parse : String → ℕ) (trends : List TrendRow)
    (h14 : 14 ≤ trends.length)
    (h0 : ((((sortL (trendLe parse) trends).drop (trends.length - 14)).take 7).map
        (fun r => r.job_count)).sum = 0) :
    (compute_posting_velocity parse trends).change_pct = 0 ∧
    (compute_posting_velocity parse trends).score = 50 := by
  have hlt : ¬ trends.length < 14 := by omega
  have hs : (sortL (trendLe parse) trends).length = trends.length :=
    sortL_length (trendLe parse) trends
  simp only [compute_posting_velocity, hlt, if_false, hs, h0]
  norm_num [round1, roundE]

/-- Witness for C10. -/
theorem posting_velocity_zero_previous_window_witness :
    (compute_posting_velocity parseIso trendsZeroPrev).change_pct = 0 ∧
    (compute_posting_velocity parseIso trendsZeroPrev).score = 50 :=
  posting_velocity_zero_previous_window parseIso trendsZeroPrev (by decide)
    (by norm_num [trendsZeroPrev, sortL, insertS, trendLe, dnum])

theorem spikesForCat_short {sqrtQ : ℚ → ℚ} {c : String} {cdata : List CatRow}
    (h : cdata.length < 14) : spikesForCat sqrtQ c cdata = [] := by
  unfold spikesForCat
  simp only [sortL_length]
  rw [if_pos h]

theorem dropsForCat_short {c : String} {cdata : List CatRow}
    (h : cdata.length < 14) : dropsForCat c cdata = [] := by
  unfold dropsForCat
  simp only [sortL_length]
  rw [if_pos h]

theorem spikesForCat_category {sqrtQ : ℚ → ℚ} {c : String} {cdata : List CatRow} {a : Alert}
    (h : a ∈ spikesForCat sqrtQ c cdata) : a.type = "spike" ∧ a.category? = some c := by
  simp only [spikesForCat] at h
  split at h
  · simp at h
  · rcases List.mem_filterMap.mp h with ⟨p, _, heq⟩
    split at heq
    · simp at heq
    · split at heq
      · rw [Option.some.injEq] at heq
        subst heq
        exact ⟨rfl, rfl⟩
      · simp at heq

theorem dropsForCat_category {c : String} {cdata : List CatRow} {a : Alert}
    (h : a ∈ dropsForCat c cdata) : a.type = "drop" ∧ a.category? = some c := by
  simp only [dropsForCat] at h
  split at h
  · simp at h
  · rcases List.mem_filterMap.mp h with ⟨p, _, heq⟩
    split at heq
    · rw [Option.some.injEq] at heq
      subst heq
      exact ⟨rfl, rfl⟩
    · simp at heq

/-- C3: a category whose daily-count series has fewer than 14 rows is silently
skipped by both spike and drop detection — no Spike and no Drop alert for it is
ever produced, regardless of the raw deviations in its counts. -/
theorem short_category_never_alerts (sqrtQ : ℚ → ℚ) (df : List CatRow) (cat : String)
    (h : (df.filter (fun r => decide (r.category_name = cat))).length < 14) :
    (detect_spikes sqrtQ df).filter (fun a => a.category? == some cat) = [] ∧
    (detect_drops df).filter (fun a => a.category? == some cat) = [] := by
  constructor
  · rw [List.filter_eq_nil_iff]
    intro a ha
    rcases List.mem_flatMap.mp ha with ⟨c, _, hmem⟩
    by_cases hc : c = cat
    · subst hc
      rw [spikesForCat_short h] at hmem
      simp at hmem
    · have := (spikesForCat_category hmem).2
      simp [this, hc]
  · rw [List.filter_eq_nil_iff]
    intro a ha
    rcases List.mem_flatMap.mp ha with ⟨c, _, hmem⟩
    by_cases hc : c = cat
    · subst hc
      rw [dropsForCat_short h] at hmem
      simp at hmem
    · have := (dropsForCat_category hmem).2
      simp [this, hc]

/-- Witness for C3: exactly 13 days of data never yield a Spike or Drop
alert. -/
theorem short_category_never_alerts_witness :
    (detect_spikes (fun _ => 0) dataRows13).filter (fun a => a.category? == some "Data") = [] ∧
    (detect_drops dataRows13).filter (fun a => a.category? == some "Data") = [] :=
  short_category_never_alerts (fun _ => 0) dataRows13 "Data" (by decide)

theorem mem_detect_skill_trends {sd : SkillData} {a : Alert}
    (h : a ∈ detect_skill_trends (some sd)) :
    a.type = "skill_trend" ∧ a.category? = none ∧
    ∃ sk, a.skill? = some sk ∧
      (lookupL sk (aggSkills sd.by_date (prevWindow sd.by_date))).getD 0 ≠ 0 := by
  simp only [detect_skill_trends] at h
  split at h
  · simp at h
  · split at h
    · simp at h
    · rcases List.mem_filterMap.mp h with ⟨p, _, heq⟩
      split at heq
      · simp at heq
      · split at heq
        · rw [Option.some.injEq] at heq
          subst heq
          refine ⟨rfl, rfl, p.1, rfl, ?_⟩
          assumption
        · simp at heq

/-- C6: skill trend detection never emits a SkillTrend alert for a skill whose
aggregated previous-7-date-window count is zero, even with a positive recent
count; and if fewer than 14 distinct date keys are present in by_date, no
SkillTrend alerts are produced at all. -/
theorem skill_trend_guards (sd : SkillData) (sk : String) :
    ((sd.by_date.map (fun p => p.1)).length < 14 → detect_skill_trends (some sd) = []) ∧
    ((lookupL sk (aggSkills sd.by_date (prevWindow sd.by_date))).getD 0 = 0 →
      (detect_skill_trends (some sd)).filter (fun a => a.skill? == some sk) = []) := by
  constructor
  · intro h
    have h2 : sd.by_date.length < 14 := by simpa using h
    unfold detect_skill_trends
    by_cases he : sd.by_date.isEmpty <;> simp [he, h2]
  · intro h0
    rw [List.filter_eq_nil_iff]
    intro a ha
    obtain ⟨_, _, sk2, hsk2, hpc⟩ := mem_detect_skill_trends ha
    simp only [hsk2, beq_iff_eq, Option.some.injEq]
    rintro rfl
    exact hpc h0

/-- Witness for C6: both guards at concrete inputs. -/
theorem skill_trend_guards_witness :
    detect_skill_trends (some sdShort) = [] ∧
    (detect_skill_trends (some sdReact)).filter (fun a => a.skill? == some "react") = [] :=
  ⟨(skill_trend_guards sdShort "x").1 (by decide),
   (skill_trend_guards sdReact "react").2 (by decide)⟩

theorem posting_velocity_score_bounds (parse : String → ℕ) (trends : List TrendRow) :
    0 ≤ (compute_posting_velocity parse trends).score ∧
    (compute_posting_velocity parse trends).score ≤ 100 := by
  unfold compute_posting_velocity
  split
  · norm_num
  · dsimp only
    constructor
    · exact round1_nonneg (le_min (by norm_num) (le_max_left 0 _))
    · exact round1_le 1000 (by norm_num) (min_le_left _ _)

theorem skill_velocity_score_bounds (sd : SkillData) :
    0 ≤ (compute_skill_velocity sd).score ∧ (compute_skill_velocity sd).score ≤ 100 := by
  unfold compute_skill_velocity
  split
  · norm_num
  · dsimp only
    constructor
    · refine round1_nonneg (le_min (by norm_num) ?_)
      positivity
    · exact round1_le 1000 (by norm_num) (min_le_left _ _)

theorem forecast_accuracy_score_bounds (parse : String → ℕ) (trends : List TrendRow)
    (forecasts : List ForecastRow) :
    0 ≤ (compute_forecast_accuracy parse trends forecasts).2.2.score ∧
    (compute_forecast_accuracy parse trends forecasts).2.2.score ≤ 100 := by
  unfold compute_forecast_accuracy
  split
  · norm_num
  · dsimp only
    split
    · norm_num
    · split
      · norm_num
      · split
        · norm_num
        · dsimp only
          refine ⟨round1_nonneg (le_max_left 0 _),
            round1_le 1000 (by norm_num) (max_le (by norm_num) ?_)⟩
          rw [sub_le_self_iff]
          positivity

theorem market_activity_score_bounds (recent_cutoff : String) (alerts : List Alert) :
    0 ≤ (compute_market_activity recent_cutoff alerts).score ∧
    (compute_market_activity recent_cutoff alerts).score ≤ 100 := by
  unfold compute_market_activity
  dsimp only
  constructor
  · exact round1_nonneg (le_max_left 0 _)
  · refine round1_le 1000 (by norm_num) (max_le (by norm_num) ?_)
    have h1 : min 100 (30 + ((((alerts.filter (fun a => strLe recent_cutoff a.generated_at)).filter
        (fun a => decide (a.type = "spike"))).length : ℚ)) * 14) ≤ 100 := min_le_left _ _
    have h2 : (0 : ℚ) ≤ ((((alerts.filter (fun a => strLe recent_cutoff a.generated_at)).filter
        (fun a => decide (a.type = "drop"))).length : ℚ)) * 10 := by positivity
    linarith

theorem company_diversity_score_bounds (companies : List CompanyRow) :
    0 ≤ (compute_company_diversity companies).score ∧
    (compute_company_diversity companies).score ≤ 100 := by
  unfold compute_company_diversity
  dsimp only
  constructor
  · refine round1_nonneg (le_min (by norm_num) ?_)
    positivity
  · exact round1_le 1000 (by norm_num) (min_le_left _ _)

/-- C1: every computed (non-default) momentum index has overall_score equal to
0.30·posting_velocity.score + 0.25·skill_velocity.score +
0.20·forecast_accuracy.score + 0.15·market_activity.score +
0.10·company_diversity.score rounded to one decimal, and — because each
component score is individually within [0,100] — the overall score lies within
[0,100]. -/
theorem jmmi_overall_score_spec (parse : String → ℕ) (recent_cutoff now : String)
    (fmt0 : ℚ → String) (inp : JmmiInputs)
    (ht : inp.trends ≠ none) (hs : inp.skills ≠ none) (hf : inp.forecasts ≠ none)
    (ha : inp.alerts ≠ none) (hc : inp.companies ≠ none)
    (j : Jmmi) (hj : compute_jmmi parse recent_cutoff now fmt0 inp = some j) :
    j.overall_score = round1 (j.posting_velocity.score * 0.30 + j.skill_velocity.score * 0.25 +
      j.forecast_accuracy.score * 0.20 + j.market_activity.score * 0.15 +
      j.company_diversity.score * 0.10) ∧
    0 ≤ j.overall_score ∧ j.overall_score ≤ 100 := by
  obtain ⟨t, hteq⟩ := Option.ne_none_iff_exists'.mp ht
  obtain ⟨s, hseq⟩ := Option.ne_none_iff_exists'.mp hs
  obtain ⟨f, hfeq⟩ := Option.ne_none_iff_exists'.mp hf
  obtain ⟨a, haeq⟩ := Option.ne_none_iff_exists'.mp ha
  obtain ⟨c, hceq⟩ := Option.ne_none_iff_exists'.mp hc
  rw [compute_jmmi, hteq, hseq, hfeq, haeq, hceq] at hj
  dsimp only at hj
  rcases hrec : generate_recommendation fmt0
      ((compute_posting_velocity parse t).score * 0.30 +
        (compute_skill_velocity s).score * 0.25 +
        (compute_forecast_accuracy parse t f).2.2.score * 0.20 +
        (compute_market_activity recent_cutoff a).score * 0.15 +
        (compute_company_diversity c).score * 0.10)
      (compute_posting_velocity parse t) (compute_skill_velocity s) with _ | rec
  all_goals rw [hrec] at hj
  · exact absurd hj (by simp)
  · rw [Option.some.injEq] at hj
    subst hj
    have hpv := posting_velocity_score_bounds parse t
    have hsv := skill_velocity_score_bounds s
    have hfa := forecast_accuracy_score_bounds parse t f
    have hma := market_activity_score_bounds recent_cutoff a
    have hcd := company_diversity_score_bounds c
    refine ⟨rfl, ?_, ?_⟩
    · exact round1_nonneg (by nlinarith [hpv.1, hsv.1, hfa.1, hma.1, hcd.1])
    · exact round1_le 1000 (by norm_num)
        (by nlinarith [hpv.2, hsv.2, hfa.2, hma.2, hcd.2])

/-- Witness for C1 at a concrete computed index. -/
theorem jmmi_overall_score_spec_witness :
    compute_jmmi parseIso "c" "n" (fun _ => "") inpAllPresent = some jmmiAllPresent ∧
    jmmiAllPresent.overall_score = round1 (jmmiAllPresent.posting_velocity.score * 0.30 +
      jmmiAllPresent.skill_velocity.score * 0.25 +
      jmmiAllPresent.forecast_accuracy.score * 0.20 +
      jmmiAllPresent.market_activity.score * 0.15 +
      jmmiAllPresent.company_diversity.score * 0.10) ∧
    0 ≤ jmmiAllPresent.overall_score ∧ jmmiAllPresent.overall_score ≤ 100 := by
  have hj : compute_jmmi parseIso "c" "n" (fun _ => "") inpAllPresent = some jmmiAllPresent := by
    norm_num [compute_jmmi, inpAllPresent, jmmiAllPresent, compute_posting_velocity,
      compute_skill_velocity, compute_forecast_accuracy, compute_market_activity,
      compute_company_diversity, interpret_jmmi, generate_recommendation, round1, roundE,
      sortL]
  have h := jmmi_overall_score_spec parseIso "c" "n" (fun _ => "") inpAllPresent
    (by simp [inpAllPresent]) (by simp [inpAllPresent]) (by simp [inpAllPresent])
    (by simp [inpAllPresent]) (by simp [inpAllPresent]) jmmiAllPresent hj
  exact ⟨hj, h.1, h.2.1, h.2.2⟩

theorem dnum_toDatetime (parse : String → ℕ) (v : DVal) :
    dnum parse (toDatetime parse v) = dnum parse v := rfl

theorem seed_le_foldl_max : ∀ (l : List ℕ) (a : ℕ), a ≤ l.foldl max a := by
  intro l
  induction l with
  | nil => intro a; exact le_refl a
  | cons x t ih => intro a; exact le_trans (le_max_left a x) (ih (max a x))

theorem le_foldl_max : ∀ (l : List ℕ) (a : ℕ), ∀ x ∈ l, x ≤ l.foldl max a := by
  intro l
  induction l with
  | nil => intro a x hx; simp at hx
  | cons y t ih =>
    intro a x hx
    rcases List.mem_cons.mp hx with rfl | hx
    · exact le_trans (le_max_right a x) (seed_le_foldl_max t (max a x))
    · exact ih (max a y) x hx

theorem foldl_max_mem : ∀ (l : List ℕ) (a : ℕ), l.foldl max a ∈ l ∨ l.foldl max a = a := by
  intro l
  induction l with
  | nil => intro a; right; rfl
  | cons x t ih =>
    intro a
    rcases ih (max a x) with h | h
    · left; exact List.mem_cons_of_mem x h
    · rcases max_choice a x with he | he
      · right; rw [List.foldl_cons, h, he]
      · left; rw [List.foldl_cons, h, he]; exact List.mem_cons_self x t

theorem getLast?_map_eq {α β : Type} (f : α → β) (l : List α) :
    (l.map f).getLast? = l.getLast?.map f := by
  rw [List.getLast?_eq_head?_reverse, List.getLast?_eq_head?_reverse, ← List.map_reverse,
    List.head?_map]

/-- Counterexample to C5 as stated: when the actual is missing (no trend row
on or before the latest forecast date), the caught IndexError reports status
"error" — not one of insufficient_data / no_actual_data / no_forecast_match —
though the score is still the neutral 50.0. -/
theorem forecast_accuracy_status_counterexample :
    7 ≤ trendsLate.length ∧ fcEarly ≠ [] ∧
    actualsOnOrBefore parseIso (latestForecastDate parseIso fcEarly) trendsLate = [] ∧
    (faResult parseIso trendsLate fcEarly).score = 50 ∧
    (faResult parseIso trendsLate fcEarly).status = "error" ∧
    ¬ (faResult parseIso trendsLate fcEarly).status ∈
        ["insufficient_data", "no_actual_data", "no_forecast_match"] := by
  decide

/-- C5 (amended): the forecast scorer reports, in the computed branch reached
when the forecasts table is nonempty and the trends series has at least 7 rows:
score = round1(max(0, 100 − 2.5·MAPE)) with MAPE = |(actual − forecast)/actual|·100
and status banding predictable (<15) / moderate (<30) / volatile, whenever the
most recent actual on or before the latest forecast date exists and is nonzero
and a forecast row matches that date (the no-match branch is dead code: the
latest forecast date always has a matching row); empty forecasts or fewer than
7 trend rows give 50.0/insufficient_data; a zero latest actual gives
50.0/no_actual_data; a missing actual (no row on or before the date) raises
IndexError, caught as 50.0 with status "error". -/
theorem forecast_accuracy_result_spec (parse : String → ℕ) (trends : List TrendRow)
    (forecasts : List ForecastRow) :
    (forecasts.isEmpty ∨ trends.length < 7 →
      faResult parse trends forecasts =
        { score := 50, mape := none, forecast := none, actual := none,
          status := "insufficient_data" }) ∧
    (¬ (forecasts.isEmpty ∨ trends.length < 7) →
      (actualsOnOrBefore parse (latestForecastDate parse forecasts) trends = [] →
        faResult parse trends forecasts =
          { score := 50, mape := none, forecast := none, actual := none, status := "error" }) ∧
      (∀ row, (actualsOnOrBefore parse (latestForecastDate parse forecasts) trends).getLast? =
          some row → row.job_count = 0 →
        faResult parse trends forecasts =
          { score := 50, mape := none, forecast := none, actual := none,
            status := "no_actual_data" }) ∧
      (∀ row frow,
        (actualsOnOrBefore parse (latestForecastDate parse forecasts) trends).getLast? =
          some row →
        ¬ row.job_count = 0 →
        (forecastRowsAt parse (latestForecastDate parse forecasts) forecasts).head? =
          some frow →
        (faResult parse trends forecasts).score =
          round1 (max 0 (100 - |(row.job_count - frow.forecast) / row.job_count| * 100 * 2.5)) ∧
        (faResult parse trends forecasts).status =
          (if |(row.job_count - frow.forecast) / row.job_count| * 100 < 15 then "predictable"
           else if |(row.job_count - frow.forecast) / row.job_count| * 100 < 30 then "moderate"
           else "volatile")) ∧
      forecastRowsAt parse (latestForecastDate parse forecasts) forecasts ≠ []) := by
  have hD2 : (List.map (fun r => dnum parse r.date)
      (List.map (fun r => { r with date := toDatetime parse r.date }) forecasts)).foldl max 0
      = latestForecastDate parse forecasts := by
    rw [List.map_map]; rfl
  have hsel : List.filter
      (fun r => decide (dnum parse r.posted_date ≤ latestForecastDate parse forecasts))
      (trends.map (fun r => { r with posted_date := toDatetime parse r.posted_date }))
      = (actualsOnOrBefore parse (latestForecastDate parse forecasts) trends).map
          (fun r => { r with posted_date := toDatetime parse r.posted_date }) := by
    rw [List.filter_map]; rfl
  have hself : List.filter
      (fun r => decide (dnum parse r.date = latestForecastDate parse forecasts))
      (forecasts.map (fun r => { r with date := toDatetime parse r.date }))
      = (forecastRowsAt parse (latestForecastDate parse forecasts) forecasts).map
          (fun r => { r with date := toDatetime parse r.date }) := by
    rw [List.filter_map]; rfl
  constructor
  · intro h
    simp only [faResult, compute_forecast_accuracy]
    rw [if_pos h]
  · intro h
    refine ⟨?_, ?_, ?_, ?_⟩
    · intro hempty
      simp only [faResult, compute_forecast_accuracy]
      rw [if_neg h, hD2, hsel, getLast?_map_eq, hempty]
      simp
    · intro row hrow hjc
      simp only [faResult, compute_forecast_accuracy]
      rw [if_neg h, hD2, hsel, getLast?_map_eq, hrow]
      simp [hjc]
    · intro row frow hrow hjc hfrow
      simp only [faResult, compute_forecast_accuracy]
      rw [if_neg h, hD2, hsel, getLast?_map_eq, hrow, hself, List.head?_map, hfrow]
      simp [hjc]
    · have hne : forecasts ≠ [] := by
        have h1 : ¬ forecasts.isEmpty = true := fun hh => h (Or.inl hh)
        simpa [List.isEmpty_iff] using h1
      rcases foldl_max_mem (forecasts.map (fun r => dnum parse r.date)) 0 with hmem | hzero
      · obtain ⟨r, hr, hdr⟩ := List.mem_map.mp hmem
        intro hcon
        have hrf : r ∈ forecastRowsAt parse (latestForecastDate parse forecasts) forecasts := by
          refine List.mem_filter.mpr ⟨hr, ?_⟩
          simp [latestForecastDate, hdr]
        rw [hcon] at hrf
        simp at hrf
      · obtain ⟨r0, hr0⟩ : ∃ r, r ∈ forecasts := by
          cases forecasts with
          | nil => exact absurd rfl hne
          | cons a t => exact ⟨a, List.mem_cons_self a t⟩
        have hle := le_foldl_max (forecasts.map (fun r => dnum parse r.date)) 0
          (dnum parse r0.date) (List.mem_map_of_mem _ hr0)
        rw [hzero] at hle
        have h0 : dnum parse r0.date = 0 := Nat.le_zero.mp hle
        intro hcon
        have hrf : r0 ∈ forecastRowsAt parse (latestForecastDate parse forecasts) forecasts := by
          refine List.mem_filter.mpr ⟨hr0, ?_⟩
          simp [latestForecastDate, hzero, h0]
        rw [hcon] at hrf
        simp at hrf

/-- Witness for the amended C5: the insufficient-data branch and the computed
MAPE branch at concrete inputs. -/
theorem forecast_accuracy_result_spec_witness :
    faResult parseIso [] [] =
      { score := 50, mape := none, forecast := none, actual := none,
        status := "insufficient_data" } ∧
    ((faResult parseIso trendsHappy fcHappy).score =
      round1 (max 0 (100 - |((10 : ℚ) - 5) / 10| * 100 * 2.5)) ∧
     (faResult parseIso trendsHappy fcHappy).status =
      (if |((10 : ℚ) - 5) / 10| * 100 < 15 then "predictable"
       else if |((10 : ℚ) - 5) / 10| * 100 < 30 then "moderate" else "volatile")) := by
  refine ⟨(forecast_accuracy_result_spec parseIso [] []).1 (by simp), ?_⟩
  exact ((forecast_accuracy_result_spec parseIso trendsHappy fcHappy).2 (by decide)).2.2.1
    ⟨.dt 7, 10⟩ ⟨.dt 7, "All", 5, 4, 6⟩ (by decide) (by decide) (by decide)

/-- Counterexample to C9: compute_forecast_accuracy is not pure in its inputs —
it assigns the to_datetime-converted date columns back onto the passed-in
tables. On a forecasts table holding a raw string date (as forecast_jobs.py
stores them), the date column differs after the call. -/
theorem forecast_accuracy_mutates_inputs :
    ¬ (((compute_forecast_accuracy parseIso trendsHappy
          [⟨.str "2024-01-08", "All", 5, 4, 6⟩]).2.1).map (fun r => r.date) =
        ([⟨.str "2024-01-08", "All", 5, 4, 6⟩] : List ForecastRow).map (fun r => r.date)) := by
  decide

/-- C9 (amended): all component scorers are pure functions of their inputs
except compute_forecast_accuracy, whose only effect on the passed-in tables is
the in-place to_datetime conversion of `trends['posted_date']` and
`forecasts['date']` once the insufficient-data guard is passed; the guard
branch returns both tables untouched, and the conversion changes no other
column — row count, job_count and forecast columns are preserved. -/
theorem forecast_accuracy_frame (parse : String → ℕ) (trends : List TrendRow)
    (forecasts : List ForecastRow) :
    (forecasts.isEmpty ∨ trends.length < 7 →
      (compute_forecast_accuracy parse trends forecasts).1 = trends ∧
      (compute_forecast_accuracy parse trends forecasts).2.1 = forecasts) ∧
    (¬ (forecasts.isEmpty ∨ trends.length < 7) →
      (compute_forecast_accuracy parse trends forecasts).1 =
        trends.map (fun r => { r with posted_date := toDatetime parse r.posted_date }) ∧
      (compute_forecast_accuracy parse trends forecasts).2.1 =
        forecasts.map (fun r => { r with date := toDatetime parse r.date })) ∧
    ((compute_forecast_accuracy parse trends forecasts).1.map (fun r => r.job_count) =
      trends.map (fun r => r.job_count) ∧
     (compute_forecast_accuracy parse trends forecasts).2.1.map (fun r => r.forecast) =
      forecasts.map (fun r => r.forecast) ∧
     (compute_forecast_accuracy parse trends forecasts).1.length = trends.length ∧
     (compute_forecast_accuracy parse trends forecasts).2.1.length = forecasts.length) := by
  have hbase : (forecasts.isEmpty ∨ trends.length < 7 →
      (compute_forecast_accuracy parse trends forecasts).1 = trends ∧
      (compute_forecast_accuracy parse trends forecasts).2.1 = forecasts) ∧
    (¬ (forecasts.isEmpty ∨ trends.length < 7) →
      (compute_forecast_accuracy parse trends forecasts).1 =
        trends.map (fun r => { r with posted_date := toDatetime parse r.posted_date }) ∧
      (compute_forecast_accuracy parse trends forecasts).2.1 =
        forecasts.map (fun r => { r with date := toDatetime parse r.date })) := by
    constructor
    · intro h
      simp only [compute_forecast_accuracy]
      rw [if_pos h]
      exact ⟨rfl, rfl⟩
    · intro h
      simp only [compute_forecast_accuracy]
      rw [if_neg h]
      constructor
      · split
        · rfl
        · split
          · rfl
          · split
            · rfl
            · rfl
      · split
        · rfl
        · split
          · rfl
          · split
            · rfl
            · rfl
  refine ⟨hbase.1, hbase.2, ?_, ?_, ?_, ?_⟩
  all_goals by_cases h : forecasts.isEmpty ∨ trends.length < 7
  · rw [(hbase.1 h).1]
  · rw [(hbase.2 h).1, List.map_map]; rfl
  · rw [(hbase.1 h).2]
  · rw [(hbase.2 h).2, List.map_map]; rfl
  · rw [(hbase.1 h).1]
  · rw [(hbase.2 h).1, List.length_map]
  · rw [(hbase.1 h).2]
  · rw [(hbase.2 h).2, List.length_map]

/-- Witness for the amended C9: both the untouched guard branch and the exact
date-conversion effect at concrete inputs. -/
theorem forecast_accuracy_frame_witness :
    ((compute_forecast_accuracy parseIso [] fcHappy).1 = [] ∧
     (compute_forecast_accuracy parseIso [] fcHappy).2.1 = fcHappy) ∧
    ((compute_forecast_accuracy parseIso trendsHappy
        [⟨.str "2024-01-08", "All", 5, 4, 6⟩]).2.1 =
      ([⟨.str "2024-01-08", "All", 5, 4, 6⟩] : List ForecastRow).map
        (fun r => { r with date := toDatetime parseIso r.date })) :=
  ⟨(forecast_accuracy_frame parseIso [] fcHappy).1 (by decide),
   ((forecast_accuracy_frame parseIso trendsHappy
      [⟨.str "2024-01-08", "All", 5, 4, 6⟩]).2.1 (by decide)).2⟩

/-- C8 (amended): every generated alert carries the generation timestamp and
the composite identifier `type + "_" + alert.get('category', 'unknown') + "_" +
timestamp`. Spike and Drop alerts carry their category in the identifier;
SkillTrend alerts carry no `category` key, so their identifier uses the
placeholder "unknown" — the skill name is not incorporated. -/
theorem alert_metadata_spec (sqrtQ : ℚ → ℚ) (df? : Option (List CatRow))
    (sd : Option SkillData) (nowIso nowTs : String) (a : Alert)
    (ha : a ∈ generate_alerts sqrtQ df? sd nowIso nowTs) :
    a.generated_at = nowIso ∧
    a.id = a.type ++ "_" ++ (a.category?.getD "unknown") ++ "_" ++ nowTs ∧
    ((a.type = "spike" ∨ a.type = "drop") →
      ∃ c, a.category? = some c ∧ a.id = a.type ++ "_" ++ c ++ "_" ++ nowTs) ∧
    (a.type = "skill_trend" →
      a.category? = none ∧ a.id = "skill_trend_unknown_" ++ nowTs) := by
  cases df? with
  | none => simp [generate_alerts] at ha
  | some df =>
    simp only [generate_alerts] at ha
    rcases List.mem_map.mp ha with ⟨b, hb, rfl⟩
    refine ⟨rfl, rfl, ?_, ?_⟩
    · intro htype
      rcases List.mem_append.mp hb with hb2 | hb2
      · rcases List.mem_append.mp hb2 with hb3 | hb3
        · rcases List.mem_flatMap.mp hb3 with ⟨c, _, hmem⟩
          obtain ⟨_, hcat⟩ := spikesForCat_category hmem
          exact ⟨c, by simp [addAlertMeta, hcat]⟩
        · rcases List.mem_flatMap.mp hb3 with ⟨c, _, hmem⟩
          obtain ⟨_, hcat⟩ := dropsForCat_category hmem
          exact ⟨c, by simp [addAlertMeta, hcat]⟩
      · cases sd with
        | none => simp [detect_skill_trends] at hb2
        | some sdv =>
          obtain ⟨hty, _, _⟩ := mem_detect_skill_trends hb2
          rcases htype with h | h <;> rw [show (addAlertMeta nowIso nowTs b).type = b.type from rfl,
            hty] at h <;> simp at h
    · intro htype
      have hty : b.type = "skill_trend" := htype
      rcases List.mem_append.mp hb with hb2 | hb2
      · rcases List.mem_append.mp hb2 with hb3 | hb3
        · rcases List.mem_flatMap.mp hb3 with ⟨c, _, hmem⟩
          have := (spikesForCat_category hmem).1
          rw [this] at hty
          simp at hty
        · rcases List.mem_flatMap.mp hb3 with ⟨c, _, hmem⟩
          have := (dropsForCat_category hmem).1
          rw [this] at hty
          simp at hty
      · cases sd with
        | none => simp [detect_skill_trends] at hb2
        | some sdv =>
          obtain ⟨hty2, hcat, _⟩ := mem_detect_skill_trends hb2
          constructor
          · exact hcat
          · show b.type ++ "_" ++ (b.category?.getD "unknown") ++ "_" ++ nowTs = _
            rw [hty2, hcat]
            rfl

theorem generate_alerts_sdPy_eval :
    generate_alerts (fun _ => 0) (some []) (some sdPy) "T" "123.456" = [alertPy] := by
  norm_num +decide [generate_alerts, detect_spikes, detect_drops, detect_skill_trends,
    aggSkills, bump, lookupL, recentWindow, prevWindow, sortL, insertS, strLe, lexLe,
    addAlertMeta, dedupF, dedupFgo, sdPy, alertPy, List.filterMap_cons, List.filterMap_nil]

theorem generate_alerts_sdRu_eval :
    generate_alerts (fun _ => 0) (some []) (some sdRu) "T" "123.456" = [alertRu] := by
  norm_num +decide [generate_alerts, detect_spikes, detect_drops, detect_skill_trends,
    aggSkills, bump, lookupL, recentWindow, prevWindow, sortL, insertS, strLe, lexLe,
    addAlertMeta, dedupF, dedupFgo, sdRu, alertRu, List.filterMap_cons, List.filterMap_nil]

/-- Counterexample to C8 as stated: two runs differing only in the trending
skill name ("python" vs "rust") produce alerts with identical identifiers
`skill_trend_unknown_123.456` — the SkillTrend identifier does not incorporate
the skill name (the source reads `alert.get('category', 'unknown')`, and
SkillTrend alerts have no category key). -/
theorem alert_id_ignores_skill :
    generate_alerts (fun _ => 0) (some []) (some sdPy) "T" "123.456" = [alertPy] ∧
    generate_alerts (fun _ => 0) (some []) (some sdRu) "T" "123.456" = [alertRu] ∧
    alertPy.skill? = some "python" ∧ alertRu.skill? = some "rust" ∧
    alertPy.skill? ≠ alertRu.skill? ∧
    alertPy.id = alertRu.id ∧
    alertPy.id = "skill_trend_unknown_123.456" :=
  ⟨generate_alerts_sdPy_eval, generate_alerts_sdRu_eval, rfl, rfl, by decide, rfl, rfl⟩

/-- Witness for the amended C8: the metadata law applied to the concrete
skill-trend alert produced from `sdPy`. -/
theorem alert_metadata_spec_witness :
    alertPy.generated_at = "T" ∧
    alertPy.id = alertPy.type ++ "_" ++ (alertPy.category?.getD "unknown") ++ "_" ++ "123.456" ∧
    ((alertPy.type = "spike" ∨ alertPy.type = "drop") →
      ∃ c, alertPy.category? = some c ∧
        alertPy.id = alertPy.type ++ "_" ++ c ++ "_" ++ "123.456") ∧
    (alertPy.type = "skill_trend" →
      alertPy.category? = none ∧ alertPy.id = "skill_trend_unknown_" ++ "123.456") :=
  alert_metadata_spec (fun _ => 0) (some []) (some sdPy) "T" "123.456" alertPy
    (by rw [generate_alerts_sdPy_eval]; exact List.mem_singleton.mpr rfl)

theorem length_enumFrom_filter {α : Type} (q : α → Bool) :
    ∀ (s : List α) (n : ℕ),
      ((s.enumFrom n).filter (fun p => q p.2)).length = (s.filter q).length := by
  intro s
  induction s with
  | nil => intro n; rfl
  | cons b t ih =>
    intro n
    rw [show (b :: t).enumFrom n = (n, b) :: t.enumFrom (n + 1) from rfl]
    by_cases hb : q b
    · rw [List.filter_cons_of_pos (by simpa using hb), List.filter_cons_of_pos hb,
        List.length_cons, List.length_cons, ih]
    · rw [List.filter_cons_of_neg (by simpa using hb), List.filter_cons_of_neg hb]
      exact ih (n + 1)

theorem enumFrom_filter_get {α : Type} (q : α → Bool) :
    ∀ (s : List α) (n j i : ℕ) (a : α),
      ((s.enumFrom n).filter (fun p => q p.2))[j]? = some (i, a) →
      n ≤ i ∧ q a = true ∧
      (s.take (i + 1 - n)).filter q = (s.filter q).take (j + 1) := by
  intro s
  induction s with
  | nil => intro n j i a h; simp [List.enumFrom] at h
  | cons b t ih =>
    intro n j i a h
    by_cases hb : q b
    · rw [show (b :: t).enumFrom n = (n, b) :: t.enumFrom (n + 1) from rfl,
        List.filter_cons_of_pos (by simpa using hb)] at h
      cases j with
      | zero =>
        rw [List.getElem?_cons_zero, Option.some.injEq] at h
        have hi : n = i := congrArg Prod.fst h
        have hab : b = a := congrArg Prod.snd h
        subst hi
        subst hab
        refine ⟨le_refl n, hb, ?_⟩
        have : n + 1 - n = 1 := by omega
        rw [this]
        simp [List.filter_cons, hb]
      | succ k =>
        rw [List.getElem?_cons_succ] at h
        obtain ⟨hni, hqa, htake⟩ := ih (n + 1) k i a h
        refine ⟨by omega, hqa, ?_⟩
        have h1 : i + 1 - n = (i + 1 - (n + 1)) + 1 := by omega
        rw [h1, List.take_succ_cons, List.filter_cons_of_pos (by simpa using hb), htake,
          List.filter_cons_of_pos (by simpa using hb), List.take_succ_cons]
    · rw [show (b :: t).enumFrom n = (n, b) :: t.enumFrom (n + 1) from rfl,
        List.filter_cons_of_neg (by simpa using hb)] at h
      obtain ⟨hni, hqa, htake⟩ := ih (n + 1) j i a h
      refine ⟨by omega, hqa, ?_⟩
      have h1 : i + 1 - n = (i + 1 - (n + 1)) + 1 := by omega
      rw [h1, List.take_succ_cons, List.filter_cons_of_neg (by simpa using hb), htake,
        List.filter_cons_of_neg (by simpa using hb)]

/-- C4: in every daily-count table, for every group key `g` and every position
`j` in that group's date-ordered series, the `rolling_7d` value at the `j`-th
row of the group in add_rolling_averages' output is defined (never NaN) and
equals the arithmetic mean of `job_count` over the trailing `min 7 (j+1)` rows
of that same group; absent days are absent rows and do not null the value. -/
theorem rolling7_trailing_mean (df : List AggRow) (g : String) (j : ℕ)
    (h : j < ((sortL aggLe df).filter (fun r => decide (r.group = g))).length) :
    (((add_rolling_averages df).filter (fun r => decide (r.group = g)))[j]?).map
        (fun r => r.rolling_7d) =
      some (some ((trailingWindow (groupSeries df g) j).sum /
        ((trailingWindow (groupSeries df g) j).length : ℚ))) ∧
    (trailingWindow (groupSeries df g) j).length = min 7 (j + 1) := by
  have hFlen : (groupSeries df g).length =
      ((sortL aggLe df).filter (fun r => decide (r.group = g))).length := by
    simp [groupSeries]
  have hwl : (trailingWindow (groupSeries df g) j).length = min 7 (j + 1) := by
    rw [trailingWindow, List.length_drop, List.length_take, hFlen]
    omega
  refine ⟨?_, hwl⟩
  have henum : (sortL aggLe df).enum = (sortL aggLe df).enumFrom 0 := rfl
  have hlen2 : (((sortL aggLe df).enum).filter (fun p => decide (p.2.group = g))).length
      = ((sortL aggLe df).filter (fun r => decide (r.group = g))).length := by
    rw [henum]
    exact length_enumFrom_filter (fun r => decide (r.group = g)) (sortL aggLe df) 0
  have hjlt : j < (((sortL aggLe df).enum).filter (fun p => decide (p.2.group = g))).length := by
    rw [hlen2]; exact h
  obtain ⟨⟨i, a⟩, hia⟩ : ∃ pr, (((sortL aggLe df).enum).filter
      (fun p => decide (p.2.group = g)))[j]? = some pr :=
    ⟨_, List.getElem?_eq_getElem hjlt⟩
  obtain ⟨-, hqa, htake⟩ := enumFrom_filter_get (fun r => decide (r.group = g))
    (sortL aggLe df) 0 j i a (by rw [← henum]; exact hia)
  have hag : a.group = g := of_decide_eq_true hqa
  rw [Nat.sub_zero] at htake
  rw [add_rolling_averages, List.filter_map,
    show ((fun r : RollRow => decide (r.group = g)) ∘ decorateRow (sortL aggLe df)) =
      (fun p : ℕ × AggRow => decide (p.2.group = g)) from rfl,
    List.getElem?_map, hia, Option.map_some', Option.map_some', Option.some.injEq]
  show rollLast 7 (((((sortL aggLe df)).take (i + 1)).filter
      (fun r => decide (r.group = a.group))).map (fun r => r.job_count)) = _
  rw [hag, htake, List.map_take]
  rw [show List.map (fun r => r.job_count)
      (List.filter (fun r => decide (r.group = g)) (sortL aggLe df)) = groupSeries df g from rfl]
  have hFtake : ((groupSeries df g).take (j + 1)).length = j + 1 := by
    rw [List.length_take, hFlen]
    omega
  rw [rollLast, hFtake]
  rw [show ((groupSeries df g).take (j + 1)).drop (j + 1 - 7) =
    trailingWindow (groupSeries df g) j from rfl]
  rw [if_neg (by rw [hwl]; omega)]

/-- Witness for C4 at the third row of a three-day series. -/
theorem rolling7_trailing_mean_witness :
    (((add_rolling_averages aggThree).filter (fun r => decide (r.group = "All")))[2]?).map
        (fun r => r.rolling_7d) =
      some (some ((trailingWindow (groupSeries aggThree "All") 2).sum /
        ((trailingWindow (groupSeries aggThree "All") 2).length : ℚ))) ∧
    (trailingWindow (groupSeries aggThree "All") 2).length = min 7 (2 + 1) :=
  rolling7_trailing_mean aggThree "All" 2 (by decide)

theorem sublist_flatMap {α β : Type} (f : α → List β) :
    ∀ {l₁ l₂ : List α}, l₁.Sublist l₂ → (l₁.flatMap f).Sublist (l₂.flatMap f) := by
  intro l₁ l₂ h
  induction h with
  | slnil => simp
  | @cons l₁ l₂ a h ih =>
    rw [List.flatMap_cons]
    exact ih.trans (List.sublist_append_right (f a) _)
  | @cons₂ l₁ l₂ a h ih =>
    rw [List.flatMap_cons, List.flatMap_cons]
    exact ih.append_left (f a)

theorem catSkills_sublist (df : List JobRow) (c : String) :
    (catSkills df c).Sublist (allSkills df) :=
  sublist_flatMap rowSkills (List.filter_sublist _)

theorem subperm_map {α β : Type} (f : α → β) {l₁ l₂ : List α} (h : l₁.Subperm l₂) :
    (l₁.map f).Subperm (l₂.map f) := by
  rcases h with ⟨l, hperm, hsub⟩
  exact ⟨l.map f, hperm.map f, hsub.map f⟩

theorem most_common_sum_le {C A : List String} (hCA : C.Sublist A) {m n : ℕ} (hmn : m ≤ n) :
    ((most_common m (counter C)).map (fun p => p.2)).sum ≤
      ((most_common n (counter A)).map (fun p => p.2)).sum := by
  have htrans : ∀ a b c : String × ℕ,
      (fun a b : String × ℕ => decide (b.2 ≤ a.2)) a b = true →
      (fun a b : String × ℕ => decide (b.2 ≤ a.2)) b c = true →
      (fun a b : String × ℕ => decide (b.2 ≤ a.2)) a c = true := by
    intro a b c h1 h2
    simp only [decide_eq_true_eq] at h1 h2 ⊢
    omega
  have htot : ∀ a b : String × ℕ,
      (fun a b : String × ℕ => decide (b.2 ≤ a.2)) a b = true ∨
      (fun a b : String × ℕ => decide (b.2 ≤ a.2)) b a = true := by
    intro a b
    simp only [decide_eq_true_eq]
    omega
  have hmemC : ∀ p ∈ most_common m (counter C), p.2 = C.count p.1 ∧ p.1 ∈ C := by
    intro p hp
    rw [most_common] at hp
    exact mem_counter ((sortL_mem _ _ p).mp (List.take_subset m _ hp))
  have hstep1 : ((most_common m (counter C)).map (fun p => p.2)).sum ≤
      ((most_common m (counter C)).map (fun p => A.count p.1)).sum := by
    apply List.sum_le_sum
    intro p hp
    obtain ⟨hcnt, _⟩ := hmemC p hp
    rw [hcnt]
    exact List.Sublist.count_le hCA p.1
  have hkeysnodup : ((most_common m (counter C)).map Prod.fst).Nodup := by
    have h1 : ((sortL (fun a b : String × ℕ => decide (b.2 ≤ a.2)) (counter C)).map
        Prod.fst).Nodup := by
      have hp : ((sortL (fun a b : String × ℕ => decide (b.2 ≤ a.2)) (counter C)).map
          Prod.fst).Perm ((counter C).map Prod.fst) :=
        (sortL_perm _ (counter C)).map Prod.fst
      exact hp.nodup_iff.mpr (counter_keys_nodup C)
    exact ((List.take_sublist m _).map Prod.fst).nodup h1
  have hblnodup : ((most_common m (counter C)).map (fun p => (p.1, A.count p.1))).Nodup := by
    rw [show (fun p : String × ℕ => (p.1, A.count p.1)) =
      (fun k => (k, A.count k)) ∘ Prod.fst from rfl, ← List.map_map]
    refine List.Nodup.map ?_ hkeysnodup
    intro x y hxy
    exact congrArg Prod.fst hxy
  have hblsub : ((most_common m (counter C)).map (fun p => (p.1, A.count p.1))) ⊆ counter A := by
    intro q hq
    rcases List.mem_map.mp hq with ⟨p, hp, rfl⟩
    obtain ⟨_, hmem⟩ := hmemC p hp
    exact List.mem_map.mpr ⟨p.1, (mem_dedupF A p.1).mpr (hCA.subset hmem), rfl⟩
  have hblsubperm := hblnodup.subperm hblsub
  have hvals : ((((most_common m (counter C)).map (fun p => (p.1, A.count p.1)))).map
      (fun p => p.2)).Subperm
      ((sortL (fun a b : String × ℕ => decide (b.2 ≤ a.2)) (counter A)).map (fun p => p.2)) := by
    refine (subperm_map (fun p => p.2) hblsubperm).trans ?_
    exact (((sortL_perm _ (counter A)).map (fun p => p.2)).symm).subperm
  have hsorted : (((sortL (fun a b : String × ℕ => decide (b.2 ≤ a.2)) (counter A)).map
      (fun p => p.2)).Pairwise (fun a b => b ≤ a)) := by
    have hp := sortL_pairwise _ htrans htot (counter A)
    rw [List.pairwise_map]
    exact hp.imp (fun hab => of_decide_eq_true hab)
  have hlen : ((((most_common m (counter C)).map (fun p => (p.1, A.count p.1)))).map
      (fun p => p.2)).length ≤ n := by
    rw [List.length_map, List.length_map]
    calc (most_common m (counter C)).length ≤ m := by
          rw [most_common]; exact List.length_take_le m _
      _ ≤ n := hmn
  have hmain := subperm_sum_le_take hvals hsorted hlen
  have hbleq : (((most_common m (counter C)).map (fun p => (p.1, A.count p.1))).map
      (fun p => p.2)) = (most_common m (counter C)).map (fun p => A.count p.1) := by
    rw [List.map_map]
    rfl
  have hrhs : (((sortL (fun a b : String × ℕ => decide (b.2 ≤ a.2)) (counter A)).map
      (fun p => p.2)).take n) = (most_common n (counter A)).map (fun p => p.2) := by
    rw [most_common, List.map_take]
  calc ((most_common m (counter C)).map (fun p => p.2)).sum
      ≤ ((most_common m (counter C)).map (fun p => A.count p.1)).sum := hstep1
    _ = ((((most_common m (counter C)).map (fun p => (p.1, A.count p.1)))).map
        (fun p => p.2)).sum := by rw [hbleq]
    _ ≤ (((sortL (fun a b : String × ℕ => decide (b.2 ≤ a.2)) (counter A)).map
        (fun p => p.2)).take n).sum := hmain
    _ = ((most_common n (counter A)).map (fun p => p.2)).sum := by rw [hrhs]

/-- C7: for every skill frequency table produced by the indexer, the sum of
the counts of any single by_category bucket (its top 20) never exceeds the sum
of the counts of `overall` (the top 100); `by_date` holds at most 30 keys, and
those keys are the lexicographically greatest truncated date strings present
(every excluded date key compares ≤ every kept one). -/
theorem skill_frequency_invariants (df : List JobRow) (c : String)
    (bucket : List (String × ℕ))
    (hmem : (c, bucket) ∈ (compute_skill_frequency df).by_category) :
    (bucket.map (fun p => p.2)).sum ≤
      (((compute_skill_frequency df).overall).map (fun p => p.2)).sum ∧
    (compute_skill_frequency df).by_date.length ≤ 30 ∧
    (∀ k ∈ (compute_skill_frequency df).by_date.map (fun p => p.1),
      ∀ k2 ∈ dateKeys df, k2 ∉ (compute_skill_frequency df).by_date.map (fun p => p.1) →
        strLe k2 k = true) := by
  refine ⟨?_, ?_, ?_⟩
  · have hbucket : bucket = most_common 20 (counter (catSkills df c)) := by
      simp only [compute_skill_frequency] at hmem
      rcases List.mem_map.mp hmem with ⟨c2, _, heq⟩
      have hc : c2 = c := congrArg Prod.fst heq
      have hb := congrArg Prod.snd heq
      simp only at hb
      rw [← hb, hc]
    rw [hbucket,
      show (compute_skill_frequency df).overall = most_common 100 (counter (allSkills df))
        from rfl]
    exact most_common_sum_le (catSkills_sublist df c) (by norm_num)
  · show ((((sortL strLe (dateKeys df)).drop ((sortL strLe (dateKeys df)).length - 30)).map
      (fun d => (d, most_common 10 (counter (dateSkills df d))))).length) ≤ 30
    rw [List.length_map, List.length_drop]
    omega
  · intro k hk k2 hk2 hnot
    have hkeys : (compute_skill_frequency df).by_date.map (fun p => p.1)
        = (sortL strLe (dateKeys df)).drop ((sortL strLe (dateKeys df)).length - 30) := by
      show (((sortL strLe (dateKeys df)).drop ((sortL strLe (dateKeys df)).length - 30)).map
          (fun d => (d, most_common 10 (counter (dateSkills df d))))).map (fun p => p.1)
        = (sortL strLe (dateKeys df)).drop ((sortL strLe (dateKeys df)).length - 30)
      rw [List.map_map, show ((fun p : String × List (String × ℕ) => p.1) ∘
        (fun d => (d, most_common 10 (counter (dateSkills df d))))) = id from rfl, List.map_id]
    rw [hkeys] at hk hnot
    have hk2s : k2 ∈ sortL strLe (dateKeys df) := (sortL_mem _ _ _).mpr hk2
    have hsplit := List.take_append_drop ((sortL strLe (dateKeys df)).length - 30)
      (sortL strLe (dateKeys df))
    have hk2t : k2 ∈ (sortL strLe (dateKeys df)).take
        ((sortL strLe (dateKeys df)).length - 30) := by
      rcases List.mem_append.mp (by rw [hsplit]; exact hk2s) with h | h
      · exact h
      · exact absurd h hnot
    have hpair := sortL_pairwise strLe (fun a b c h1 h2 => strLe_trans h1 h2)
      strLe_total (dateKeys df)
    rw [← hsplit] at hpair
    exact (List.pairwise_append.mp hpair).2.2 k2 hk2t k hk

/-- Witness for C7: the bucket-sum bound, the 30-key cap, and one
kept/excluded key comparison, at a 31-date input. -/
theorem skill_frequency_invariants_witness :
    (([("python", 31)] : List (String × ℕ)).map (fun p => p.2)).sum ≤
      (((compute_skill_frequency dfDates31).overall).map (fun p => p.2)).sum ∧
    (compute_skill_frequency dfDates31).by_date.length ≤ 30 ∧
    strLe "d01" "d02" = true := by
  have h := skill_frequency_invariants dfDates31 "Data" [("python", 31)] (by decide)
  exact ⟨h.1, h.2.1, h.2.2 "d02" (by decide) "d01" (by decide) (by decide)⟩
